import Mathlib

/-!
Verification of the sprout-ai symptom-analysis core.

Shallow embedding conventions:
* Python strings are `List Char` (`Str`); `str s` converts a Lean string literal.
* Python `a in b` (substring test) is `substrB`; `str.lower()` is `lowerStr`
  (ASCII case folding, `Char.toLower`, which agrees with Python on the ASCII
  data used throughout); `str.strip()` is `pstrip`.
* Python dicts are association lists in insertion order; `dict.get(k, d)` is
  `(List.lookup k l).getD d`; `k in dict` is `hasKey`; `defaultdict(float)`
  accumulation `d[k] += v` is `addScore` (update in place, append new keys).
* Python floats are modelled as exact rationals `ℚ`; `round(x, 3)` is
  `pyRound3` (round half to even, as Python does).
* `list(set(xs))` is `xs.dedup` (the Python iteration order of a `set` is
  unspecified; theorems about such results are stated up to set equality).
* The static data files `data/symptoms.json` / `data/remedies.json` are not
  part of the source tree; each loader is modelled as a function of an
  `Option` holding the successfully parsed content, `none` meaning a missing
  or malformed file, which in the source takes the `except` branch.
-/

namespace SproutAI

abbrev Str := List Char

def str (s : String) : Str := s.toList

/-- Boolean substring containment, Python's `needle in hay` on strings. -/
def substrB : Str → Str → Bool
  | n, [] => n.isPrefixOf []
  | n, c :: t => n.isPrefixOf (c :: t) || substrB n t

/-- ASCII lower-casing of a whole string, Python's `str.lower()`. -/
def lowerStr (s : Str) : Str := s.map Char.toLower

/-- Whitespace recognised by Python's `str.strip()` / `str.split()`. -/
def pySpace (c : Char) : Bool :=
  c = ' ' || c = '\t' || c = '\n' || c = '\r' || c = '\x0b' || c = '\x0c'

/-- Python's `str.strip()`: drop leading and trailing whitespace. -/
def pstrip (s : Str) : Str :=
  ((s.dropWhile pySpace).reverse.dropWhile pySpace).reverse

/-- Python's `str.split()` with no argument: split on whitespace runs,
discarding empty fragments. -/
def splitWords (s : Str) : List Str :=
  (s.splitOnP pySpace).filter (fun wd => wd ≠ [])

/-- Python's `" ".join(xs)`. -/
def joinSpace : List Str → Str
  | [] => []
  | [a] => a
  | a :: rest => a ++ ' ' :: joinSpace rest

/-- Key membership in an association list, Python's `k in dict`. -/
def hasKey (l : List (Str × α)) (k : Str) : Bool := (l.map Prod.fst).contains k

/-- Accumulation into a `defaultdict(float)`: `d[k] += v`, keeping insertion
order (existing keys updated in place, new keys appended). -/
def addScore : List (Str × ℚ) → Str → ℚ → List (Str × ℚ)
  | [], d, v => [(d, v)]
  | (k, x) :: t, d, v => if k = d then (k, x + v) :: t else (k, x) :: addScore t d v

/-- Maximum of a list of rationals, Python's `max(xs)` (callers guard against
the empty list, where the value is irrelevant). -/
def listMax : List ℚ → ℚ
  | [] => 0
  | v :: t => t.foldl max v

/-- Python's `round(x, 3)`: scale by 1000, round half to even, scale back. -/
def pyRound3 (q : ℚ) : ℚ :=
  let x := q * 1000
  let f : ℤ := Int.floor x
  let r := x - (f : ℚ)
  let n : ℤ := if r < 1/2 then f else if 1/2 < r then f + 1
    else if f % 2 = 0 then f else f + 1
  (n : ℚ) / 1000

/-! ### safety.py -/

/-- Result of `check_emergency`: the returned dict has keys `emergency`,
`level` and (in the emergency case only) `message`. -/
structure EmergencyResult where
  emergency : Bool
  level : String
  message : Option String
deriving Repr, DecidableEq

/-- Hardcoded fallback of `load_emergency_symptoms` in safety.py. -/
def EMERGENCY_SYMPTOMS_fallback : List Str :=
  [str "chest pain", str "difficulty breathing", str "severe bleeding",
   str "unconscious", str "seizure", str "high fever", str "blurred vision",
   str "severe headache"]

/-- safety.py `load_emergency_symptoms`: the parsed `emergency_symptoms`
entry of data/remedies.json, or the hardcoded fallback on any failure. -/
def load_emergency_symptoms : Option (List Str) → List Str
  | some l => l
  | none => EMERGENCY_SYMPTOMS_fallback

/-- safety.py `check_emergency`, parametrised by the loaded module-level
`EMERGENCY_SYMPTOMS` list.  The source loop short-circuits on the first
matching phrase but returns the same fixed record for every match, so the
result only depends on whether some phrase matches. -/
def check_emergency (emergencyList : List Str) (symptom_text : Str) : EmergencyResult :=
  let t := lowerStr symptom_text
  if emergencyList.any (fun danger => substrB danger t) then
    { emergency := true, level := "critical",
      message := some "Possible medical emergency detected. Seek immediate medical help." }
  else
    { emergency := false, level := "normal", message := none }

/-! ### symptoms.py -/

/-- Hardcoded fallback table of `load_symptom_map` in symptoms.py. -/
def SYMPTOM_MAP_fallback : List (Str × Str) :=
  [(str "fever", str "viral infection"),
   (str "high temperature", str "viral infection"),
   (str "cold", str "common cold"),
   (str "runny nose", str "common cold"),
   (str "cough", str "respiratory irritation"),
   (str "dry cough", str "respiratory irritation"),
   (str "sore throat", str "throat infection"),
   (str "throat pain", str "throat infection"),
   (str "body pain", str "viral infection"),
   (str "headache", str "stress or dehydration"),
   (str "acidity", str "gastric issue"),
   (str "burning sensation", str "gastric issue"),
   (str "stomach pain", str "gastric issue"),
   (str "vomiting", str "digestive upset"),
   (str "loose motion", str "digestive upset")]

/-- symptoms.py `load_symptom_map`: the parsed `symptom_map` entry of
data/symptoms.json, or the hardcoded fallback on any failure. -/
def load_symptom_map : Option (List (Str × Str)) → List (Str × Str)
  | some m => m
  | none => SYMPTOM_MAP_fallback

/-! ### diagnosis.py -/

/-- Result of `diagnose`: keys `condition`, `confidence`, optional `message`. -/
structure DiagnosisResult where
  condition : Str
  confidence : String
  message : Option String
deriving Repr, DecidableEq

/-- First element maximising `f`, Python's `max(xs, key=f)` (ties keep the
earlier element of the traversal). -/
def argmaxBy (f : Str → ℕ) (l : List Str) : Str :=
  l.foldl (fun b a => if f b < f a then a else b) (l.headD [])

/-- diagnosis.py `diagnose`, parametrised by the loaded `SYMPTOM_MAP`.
`max(set(matched_conditions), key=matched_conditions.count)` iterates a
Python set whose order is unspecified; the model uses first-occurrence
(`dedup`) order, which the source documents as an unspecified tie-break. -/
def diagnose (symptom_map : List (Str × Str)) (symptom_text : Str) : DiagnosisResult :=
  let t := lowerStr symptom_text
  let matched := (symptom_map.filter (fun p => substrB p.1 t)).map Prod.snd
  if matched = [] then
    { condition := str "unknown", confidence := "low",
      message := some "Symptoms are unclear. Please consult a doctor if they persist." }
  else
    { condition := argmaxBy (fun c => matched.count c) matched.dedup,
      confidence := if 2 ≤ matched.length then "high" else "medium",
      message := none }

/-! ### remedies.py -/

/-- One remedy record; the basic database has no `usage` key, the enhanced
one sometimes does. -/
structure Remedy where
  remedy : String
  benefit : String
  explanation : String
  usage : Option String
deriving Repr, DecidableEq

/-- Hardcoded fallback remedy database of `load_remedy_database`. -/
def REMEDY_DB_fallback : List (Str × List Remedy) :=
  [(str "viral infection",
    [{ remedy := "Ginger Tea", benefit := "Boosts immunity and reduces inflammation",
       explanation := "Ginger contains gingerol which helps fight viral infections",
       usage := none },
     { remedy := "Turmeric Milk", benefit := "Natural antiseptic",
       explanation := "Curcumin in turmeric reduces internal inflammation",
       usage := none }]),
   (str "common cold",
    [{ remedy := "Tulsi Tea", benefit := "Relieves congestion",
       explanation := "Tulsi has antiviral and immunity boosting properties",
       usage := none }]),
   (str "throat infection",
    [{ remedy := "Salt Water Gargle", benefit := "Kills throat bacteria",
       explanation := "Salt reduces swelling and removes infection-causing microbes",
       usage := none }]),
   (str "gastric issue",
    [{ remedy := "Aloe Vera Juice", benefit := "Soothes stomach lining",
       explanation := "Aloe reduces acid irritation naturally",
       usage := none }]),
   (str "digestive upset",
    [{ remedy := "Jeera Water", benefit := "Improves digestion",
       explanation := "Cumin stimulates digestive enzymes",
       usage := none }])]

/-- remedies.py `load_remedy_database`: the parsed
(`remedy_database`, `disease_precautions`) pair of data/remedies.json, or
the hardcoded fallback (with empty precautions) on any failure. -/
def load_remedy_database :
    Option (List (Str × List Remedy) × List (Str × List String)) →
    List (Str × List Remedy) × List (Str × List String)
  | some p => p
  | none => (REMEDY_DB_fallback, [])

/-- remedies.py `get_remedies`: `REMEDY_DB.get(condition, [])` — a lookup of
the condition string exactly as given (no case folding). -/
def get_remedies (db : List (Str × List Remedy)) (condition : Str) : List Remedy :=
  (List.lookup condition db).getD []

/-- remedies.py `get_precautions`: `PRECAUTIONS_DB.get(condition, [])`. -/
def get_precautions (pdb : List (Str × List String)) (condition : Str) : List String :=
  (List.lookup condition pdb).getD []

/-! ### advanced_diagnosis.py (class AdvancedDiagnosisEngine)

Instance state (`self.symptom_map`, `self.disease_symptoms`) is passed
explicitly to each method.  `self.disease_prevalence` is written by
`load_medical_data` but never read anywhere, so it is omitted. -/

/-- `load_medical_data`: the parsed (`symptom_map`, `disease_symptoms`) pair
of data/symptoms.json; on any failure the `except` branch sets both tables
to empty dicts. -/
def load_medical_data :
    Option (List (Str × Str) × List (Str × List Str)) →
    List (Str × Str) × List (Str × List Str)
  | some p => p
  | none => ([], [])

/-- Total number of occurrences of symptom `s` across all disease profile
lists — the count accumulated by the first loop of
`calculate_symptom_weights` (a profile list containing `s` twice counts it
twice, exactly as the source's nested loop does). -/
def occurrenceCount (ds : List (Str × List Str)) (s : Str) : ℕ :=
  (ds.map (fun p => p.2.count s)).sum

/-- The weight lookup `self.symptom_weights.get(s, 1.0)`: for a symptom
occurring in some profile, `calculate_symptom_weights` stores
`max(1.0, total_diseases / disease_count)`; absent symptoms default
to `1.0`. -/
def symptom_weights_get (ds : List (Str × List Str)) (s : Str) : ℚ :=
  let c := occurrenceCount ds s
  if c = 0 then 1 else max 1 ((ds.length : ℚ) / (c : ℚ))

/-- The `symptom_variations` table local to `extract_symptoms_from_text`. -/
def symptom_variations : List (Str × List Str) :=
  [(str "headache", [str "head pain", str "head ache", str "migraine"]),
   (str "stomach pain", [str "belly pain", str "tummy ache", str "abdominal pain"]),
   (str "chest pain", [str "chest ache", str "heart pain"]),
   (str "joint pain", [str "arthritis pain", str "bone pain"]),
   (str "muscle pain", [str "body ache", str "muscle ache"]),
   (str "high fever", [str "fever", str "temperature", str "hot"]),
   (str "cough", [str "coughing", str "dry cough"]),
   (str "vomiting", [str "throwing up", str "nausea", str "sick"]),
   (str "diarrhea", [str "loose motion", str "loose stool"]),
   (str "fatigue", [str "tired", str "exhausted", str "weakness"]),
   (str "breathlessness", [str "shortness of breath", str "difficulty breathing"])]

/-- Direct pass of `extract_symptoms_from_text`: all symptom-map keys
contained in the processed text. -/
def direct_matches (sm : List (Str × Str)) (t : Str) : List Str :=
  (sm.map Prod.fst).filter (fun k => substrB k t)

/-- One iteration of the fuzzy-matching loop of
`extract_symptoms_from_text`: skip a standard symptom already found,
otherwise scan its variations in order (the source `break`s on the first
variation contained in the text) and append the standard symptom when it is
a symptom-map key. -/
def variation_step (sm : List (Str × Str)) (t : Str) (acc : List Str)
    (p : Str × List Str) : List Str :=
  if acc.contains p.1 then acc
  else
    match p.2.find? (fun v => substrB v t) with
    | some _ => if hasKey sm p.1 then acc ++ [p.1] else acc
    | none => acc

/-- `extract_symptoms_from_text`: lower-case and strip the text, collect the
direct matches, run the fuzzy-variation loop, then `list(set(...))`. -/
def extract_symptoms_from_text (sm : List (Str × Str)) (text : Str) : List Str :=
  (symptom_variations.foldl (variation_step sm (pstrip (lowerStr text)))
    (direct_matches sm (pstrip (lowerStr text)))).dedup

/-- First scoring loop of `calculate_disease_probability`: for each listed
symptom present in the symptom map, add its weight to its primary
condition's score. -/
def primary_scores (sm : List (Str × Str)) (ds : List (Str × List Str))
    (symptoms : List Str) : List (Str × ℚ) :=
  symptoms.foldl (fun acc s =>
    match List.lookup s sm with
    | some primary_disease => addScore acc primary_disease (symptom_weights_get ds s)
    | none => acc) []

/-- Second scoring loop of `calculate_disease_probability`: for each disease
whose profile intersects the symptom set, add
`match_percentage * weighted_sum` (the intersection is a Python set, hence
`dedup`; the percentage denominator is the raw profile list length). -/
def profile_scores (ds : List (Str × List Str)) (symptoms : List Str)
    (init : List (Str × ℚ)) : List (Str × ℚ) :=
  ds.foldl (fun acc p =>
    let matched := p.2.dedup.filter (fun s => symptoms.contains s)
    if matched = [] then acc
    else
      addScore acc p.1
        (((matched.length : ℚ) / (p.2.length : ℚ)) *
          (matched.map (symptom_weights_get ds)).sum)) init

/-- Normalisation loop of `calculate_disease_probability`: when any score
accumulated, divide every score by the maximum accumulated score. -/
def normalize_scores (s2 : List (Str × ℚ)) : List (Str × ℚ) :=
  if s2 = [] then s2
  else s2.map (fun q => (q.1, q.2 / listMax (s2.map Prod.snd)))

/-- `calculate_disease_probability`: primary-condition contributions, then
profile-match contributions into the same running totals, then division of
every accumulated score by the maximum accumulated score. -/
def calculate_disease_probability (sm : List (Str × Str)) (ds : List (Str × List Str))
    (symptoms : List Str) : List (Str × ℚ) :=
  if symptoms = [] then []
  else normalize_scores (profile_scores ds symptoms (primary_scores sm ds symptoms))

/-- `get_confidence_level`: the fixed threshold table, first match wins. -/
def get_confidence_level (top_score : ℚ) (symptom_count : ℕ) : String :=
  if 0.8 ≤ top_score ∧ 3 ≤ symptom_count then "very high"
  else if 0.6 ≤ top_score ∧ 2 ≤ symptom_count then "high"
  else if 0.4 ≤ top_score then "medium"
  else if 0.2 ≤ top_score then "low"
  else "very low"

/-- One entry of the differential-diagnosis list. -/
structure DiffEntry where
  disease : Str
  confidence : String
  score : ℚ
  rank : ℕ
  matching_symptoms : List Str
  missing_symptoms : List Str
  total_disease_symptoms : ℕ
deriving Repr, DecidableEq

/-- Loop body of `get_differential_diagnosis`: the result entry for the
`e.1`-th ranked disease `e.2.1` with normalized score `e.2.2`.  The
confidence label is computed from the raw normalized score; the reported
`score` field is rounded to 3 places. -/
def diff_entry (ds : List (Str × List Str)) (symptoms : List Str)
    (e : ℕ × (Str × ℚ)) : DiffEntry :=
  let disease_symptom_set := ((List.lookup e.2.1 ds).getD []).dedup
  { disease := e.2.1,
    confidence := get_confidence_level e.2.2 symptoms.length,
    score := pyRound3 e.2.2,
    rank := e.1 + 1,
    matching_symptoms := disease_symptom_set.filter (fun s => symptoms.contains s),
    missing_symptoms := (disease_symptom_set.filter (fun s => ¬ symptoms.contains s)).take 5,
    total_disease_symptoms := disease_symptom_set.length }

/-- `get_differential_diagnosis`: sort the score dict descending by score
(Python's `sorted` is stable, as is `mergeSort`), keep `top_n`, and build
an entry per disease. -/
def get_differential_diagnosis (sm : List (Str × Str)) (ds : List (Str × List Str))
    (symptoms : List Str) (top_n : ℕ) : List DiffEntry :=
  ((((calculate_disease_probability sm ds symptoms).mergeSort
      (fun a b => decide (b.2 ≤ a.2))).take top_n).enum).map (diff_entry ds symptoms)

/-- The `common_symptoms` list of `_get_symptom_suggestions`. -/
def common_symptoms : List Str :=
  [str "fever", str "headache", str "cough", str "stomach pain",
   str "chest pain", str "fatigue", str "nausea", str "vomiting",
   str "diarrhea", str "joint pain", str "muscle pain", str "skin rash",
   str "breathlessness", str "dizziness"]

/-- `_get_symptom_suggestions`: the common symptoms present in the loaded
symptom map. -/
def get_symptom_suggestions (sm : List (Str × Str)) : List Str :=
  common_symptoms.filter (fun s => hasKey sm s)

/-- Result of `advanced_diagnose`; one constructor per returned dict shape
(no recognisable symptoms / no condition matched / diagnosis found). -/
inductive AdvResult where
  | unknown_no_symptoms (condition : Str) (confidence message : String)
      (differential : List DiffEntry) (extracted suggestions : List Str)
  | unknown_no_match (condition : Str) (confidence message : String)
      (differential : List DiffEntry) (extracted suggestions : List Str)
  | diagnosed (primary : DiffEntry) (differential : List DiffEntry)
      (extracted : List Str) (total_symptoms_analyzed : ℕ)
deriving Repr, DecidableEq

/-- `advanced_diagnose`: extract symptoms, return the fixed unknown payload
(with suggestions) when none are found, otherwise compute the differential
diagnosis (top 3), return the other unknown payload (with the extracted
symptoms and no suggestions) when it is empty, and otherwise report its head
as the primary diagnosis and the rest as alternatives. -/
def advanced_diagnose (sm : List (Str × Str)) (ds : List (Str × List Str))
    (symptom_text : Str) : AdvResult :=
  let symptoms := extract_symptoms_from_text sm symptom_text
  if symptoms = [] then
    .unknown_no_symptoms (str "unknown") "very low"
      "No recognizable symptoms found. Please describe your symptoms more specifically."
      [] [] (get_symptom_suggestions sm)
  else
    match get_differential_diagnosis sm ds symptoms 3 with
    | [] =>
        .unknown_no_match (str "unknown") "very low"
          "Unable to match symptoms to known conditions." [] symptoms []
    | primary :: rest => .diagnosed primary rest symptoms symptoms.length

/-! ### enhanced_remedies.py (class EnhancedRemedySystem)

The instance databases `self.remedy_database` / `self.precautions_database`
(loaded from file and merged with the hardcoded comprehensive tables in
`initialize_comprehensive_remedies`) are passed explicitly to the lookup
methods; the tables that appear literally inside a method body are embedded
below. -/

/-- `EnhancedRemedySystem.get_remedies`:
`self.remedy_database.get(condition.lower(), [])`. -/
def ers_get_remedies (remedy_database : List (Str × List Remedy)) (condition : Str) :
    List Remedy :=
  (List.lookup (lowerStr condition) remedy_database).getD []

/-- `EnhancedRemedySystem.get_precautions`:
`self.precautions_database.get(condition.lower(), [])`. -/
def ers_get_precautions (precautions_database : List (Str × List String)) (condition : Str) :
    List String :=
  (List.lookup (lowerStr condition) precautions_database).getD []

/-- The `emergency_conditions` dict local to `get_emergency_remedies`:
condition → (immediate_actions, warning). -/
def emergency_conditions : List (Str × (List String × String)) :=
  [(str "heart attack",
    (["Call 911 immediately", "Chew aspirin if available and not allergic",
      "Sit down and rest", "Loosen tight clothing"],
     "This is a life-threatening emergency requiring immediate medical attention")),
   (str "paralysis (brain hemorrhage)",
    (["Call 911 immediately", "Do not give food or water",
      "Keep person calm and still", "Note time symptoms started"],
     "Brain hemorrhage requires immediate emergency medical care")),
   (str "hepatitis e",
    (["Seek immediate medical attention", "Avoid alcohol completely",
      "Stay hydrated with clear fluids", "Rest and avoid strenuous activity"],
     "Acute liver failure can be life-threatening"))]

/-- `get_emergency_remedies`: `emergency_conditions.get(condition.lower(), {})`
(`none` models the empty dict returned on a miss). -/
def get_emergency_remedies (condition : Str) : Option (List String × String) :=
  List.lookup (lowerStr condition) emergency_conditions

/-- The `lifestyle_recommendations` dict local to
`get_lifestyle_recommendations`. -/
def lifestyle_recommendations : List (Str × List String) :=
  [(str "diabetes",
    ["Follow a low-glycemic diet", "Exercise regularly (150 minutes/week)",
     "Monitor blood sugar levels", "Maintain healthy weight", "Stay hydrated",
     "Get adequate sleep (7-9 hours)"]),
   (str "hypertension",
    ["Reduce sodium intake (<2300mg/day)", "Increase potassium-rich foods",
     "Maintain healthy weight", "Exercise regularly", "Limit alcohol consumption",
     "Manage stress through meditation/yoga", "Quit smoking"]),
   (str "arthritis",
    ["Maintain healthy weight", "Low-impact exercise (swimming, walking)",
     "Apply heat/cold therapy", "Practice gentle stretching",
     "Use ergonomic tools", "Get adequate sleep"]),
   (str "gerd",
    ["Eat smaller, frequent meals", "Avoid trigger foods (spicy, acidic, fatty)",
     "Don\x27t lie down after eating", "Elevate head of bed",
     "Maintain healthy weight", "Quit smoking", "Limit alcohol and caffeine"])]

/-- `get_lifestyle_recommendations`:
`lifestyle_recommendations.get(condition.lower(), [])`. -/
def get_lifestyle_recommendations (condition : Str) : List String :=
  (List.lookup (lowerStr condition) lifestyle_recommendations).getD []

/-- The `dietary_recommendations` dict local to
`get_dietary_recommendations`: condition → (foods_to_include, foods_to_avoid). -/
def dietary_recommendations : List (Str × (List String × List String)) :=
  [(str "diabetes",
    (["Leafy greens", "Fatty fish", "Nuts and seeds", "Berries",
      "Sweet potatoes", "Legumes"],
     ["Refined sugars", "White bread", "Processed foods", "Sugary drinks",
      "Trans fats"])),
   (str "hypertension",
    (["Bananas", "Leafy greens", "Berries", "Beets", "Oats", "Garlic",
      "Dark chocolate"],
     ["High sodium foods", "Processed meats", "Canned soups", "Fast food",
      "Alcohol in excess"])),
   (str "arthritis",
    (["Fatty fish", "Leafy greens", "Berries", "Cherries", "Olive oil",
      "Nuts", "Turmeric"],
     ["Processed foods", "Refined sugars", "Trans fats",
      "Excessive omega-6 oils"]))]

/-- `get_dietary_recommendations`:
`dietary_recommendations.get(condition.lower(), {})` (`none` models the
empty dict returned on a miss). -/
def get_dietary_recommendations (condition : Str) : Option (List String × List String) :=
  List.lookup (lowerStr condition) dietary_recommendations

/-! ### ai_engine/__init__.py pipeline entry points

Both entry points are parametrised by the loaded module-level tables:
the emergency phrase list, the simple symptom map, the advanced engine's
two tables, the basic remedy/precaution databases and the enhanced remedy
system's two databases. -/

/-- Result of `analyze_symptoms`: in the emergency branch the dict carries
`diagnosis: None`, empty remedies/precautions and a `warning`; otherwise a
diagnosis, its remedies/precautions and a `disclaimer`. -/
structure AnalysisResult where
  emergency : EmergencyResult
  diagnosis : Option DiagnosisResult
  remedies : List Remedy
  precautions : List String
  warning : Option String
  disclaimer : Option String
deriving Repr, DecidableEq

/-- `analyze_symptoms`: emergency check first; a positive result returns the
fixed emergency payload without diagnosing, otherwise diagnose and attach
remedies and precautions for the diagnosed condition. -/
def analyze_symptoms (es : List Str) (sm : List (Str × Str))
    (rdb : List (Str × List Remedy)) (pdb : List (Str × List String))
    (symptom_text : Str) : AnalysisResult :=
  let emergency_result := check_emergency es symptom_text
  if emergency_result.emergency then
    { emergency := emergency_result, diagnosis := none, remedies := [],
      precautions := [],
      warning := some "EMERGENCY DETECTED - Seek immediate medical attention!",
      disclaimer := none }
  else
    let diagnosis_result := diagnose sm symptom_text
    { emergency := emergency_result, diagnosis := some diagnosis_result,
      remedies := get_remedies rdb diagnosis_result.condition,
      precautions := get_precautions pdb diagnosis_result.condition,
      warning := none,
      disclaimer := some "This is for informational purposes only. Consult a healthcare professional for proper medical advice." }

/-- Result of `advanced_analyze_symptoms`; one constructor per returned dict
shape (`type` key `emergency` / `unknown` / `advanced_diagnosis`). -/
inductive AdvAnalysis where
  | emergency (emergency_result : EmergencyResult)
      (emergency_remedies : Option (List String × String)) (warning : String)
  | unknown (message : String) (suggestions extracted : List Str)
  | advanced_diagnosis (primary : DiffEntry) (differential : List DiffEntry)
      (natural_remedies : List Remedy) (medical_precautions : List String)
      (lifestyle : List String) (dietary : Option (List String × List String))
      (extracted : List Str) (total_symptoms_analyzed : ℕ)
deriving Repr, DecidableEq

/-- `advanced_analyze_symptoms`: emergency check first (the returned
emergency dict never carries a `suspected_condition` key, so
`emergency_result.get('suspected_condition', 'general')` is always
`"general"`); otherwise run `advanced_diagnose` and branch on whether the
primary condition is `"unknown"` (which in the engine happens exactly in the
two unknown dict shapes, no disease being named "unknown"). -/
def advanced_analyze_symptoms (es : List Str) (sm : List (Str × Str))
    (ds : List (Str × List Str)) (erdb : List (Str × List Remedy))
    (epdb : List (Str × List String)) (symptom_text : Str) : AdvAnalysis :=
  let emergency_result := check_emergency es symptom_text
  if emergency_result.emergency then
    .emergency emergency_result (get_emergency_remedies (str "general"))
      "MEDICAL EMERGENCY DETECTED - Seek immediate professional help!"
  else
    match advanced_diagnose sm ds symptom_text with
    | .unknown_no_symptoms _ _ message _ _ suggestions =>
        .unknown message suggestions []
    | .unknown_no_match _ _ message _ extracted _ =>
        .unknown message [] extracted
    | .diagnosed primary differential extracted total =>
        .advanced_diagnosis primary differential
          (ers_get_remedies erdb primary.disease)
          (ers_get_precautions epdb primary.disease)
          (get_lifestyle_recommendations primary.disease)
          (get_dietary_recommendations primary.disease)
          extracted total

/-! ### nlp_processor.py (class SymptomNLPProcessor)

`_extract_symptoms` uses `re.findall` on ten fixed patterns.  The patterns
only use literals, alternations of literals (possibly with an empty
alternative), a single lazy capture `(.*?)`, `\s+`/`\s*`, a final `$`, and
`s?`; they are hand-compiled below into item sequences for a small
backtracking matcher whose choice order (alternatives left to right, lazy
star shortest first, greedy whitespace longest first) mirrors Python's.
`re.IGNORECASE` is immaterial here because every text fed to the matcher in
the theorems below is already lower-case, and the texts contain no newline
(so `.` and `$` behave literally). -/

/-- One hand-compiled regular-expression item. -/
inductive RItem where
  | lit (s : Str)
  | alts (ws : List Str)
  | capAlts (ws : List Str)
  | capLazyStar
  | ws1
  | ws0
  | eos
  | optChar (c : Char)
deriving Repr, DecidableEq

/-- A hand-compiled pattern: an item sequence followed by a trailing
non-capturing alternation of item sequences (`[[]]` when the pattern has no
trailing group). -/
structure RPattern where
  items : List RItem
  tails : List (List RItem)
deriving Repr, DecidableEq

/-- Backtracking matcher in continuation-passing style: try to match the
item sequence at the start of `s`, threading the (at most one) captured
group, and hand the remainder to `k`.  Choice points are tried in Python's
preference order. -/
def mseq : List RItem → Str → Option Str →
    (Option Str → Str → Option (Option Str × Str)) → Option (Option Str × Str)
  | [], s, cap, k => k cap s
  | it :: rest, s, cap, k =>
    match it with
    | .lit l => if l.isPrefixOf s then mseq rest (s.drop l.length) cap k else none
    | .alts ws => ws.foldr (fun alt acc =>
        (if alt.isPrefixOf s then mseq rest (s.drop alt.length) cap k else none) <|> acc) none
    | .capAlts ws => ws.foldr (fun alt acc =>
        (if alt.isPrefixOf s then mseq rest (s.drop alt.length) (some alt) k else none) <|> acc) none
    | .capLazyStar => (List.range (s.length + 1)).foldr (fun n acc =>
        (mseq rest (s.drop n) (some (s.take n)) k) <|> acc) none
    | .ws1 =>
        let m := (s.takeWhile pySpace).length
        ((List.range m).map (fun i => m - i)).foldr (fun n acc =>
          (mseq rest (s.drop n) cap k) <|> acc) none
    | .ws0 =>
        let m := (s.takeWhile pySpace).length
        ((List.range (m + 1)).map (fun i => m - i)).foldr (fun n acc =>
          (mseq rest (s.drop n) cap k) <|> acc) none
    | .eos => if s = [] then mseq rest s cap k else none
    | .optChar c =>
        (match s with
         | c2 :: t => if c2 = c then mseq rest t cap k else none
         | [] => none) <|> mseq rest s cap k

/-- Try the trailing alternation's sequences in order. -/
def mtails (tails : List (List RItem)) (cap : Option Str) (s : Str) :
    Option (Option Str × Str) :=
  tails.foldr (fun tl acc => (mseq tl s cap (fun c r => some (c, r))) <|> acc) none

/-- Match a whole pattern at the start of `s`, returning the captured group
(if any) and the remainder after the match. -/
def matchHere (p : RPattern) (s : Str) : Option (Option Str × Str) :=
  mseq p.items s none (fun cap rest => mtails p.tails cap rest)

/-- Scanner for `re.findall`: try the pattern at each position, record the
single group (or the whole match for group-free patterns), continue after
the match (one position further on a zero-width match). -/
def findallAux (p : RPattern) : Str → ℕ → List Str
  | _, 0 => []
  | s, fuel + 1 =>
    match matchHere p s with
    | some (cap, rest) =>
        let whole := s.take (s.length - rest.length)
        let m := cap.getD whole
        if whole = [] then
          m :: (match s with | [] => [] | _ :: t => findallAux p t fuel)
        else m :: findallAux p rest fuel
    | none => match s with | [] => [] | _ :: t => findallAux p t fuel

/-- Python's `re.findall(pattern, s)` for the hand-compiled patterns. -/
def re_findall (p : RPattern) (s : Str) : List Str := findallAux p s (s.length + 1)

/-- The ten `symptom_patterns` of `_extract_symptoms`, hand-compiled (the
`(?:a |b |...|)?` groups carry an empty last alternative, which subsumes
their trailing `?`). -/
def symptom_patterns : List RPattern :=
  [{ items := [.lit (str "i have "),
               .alts [str "a ", str "an ", str "some ", str "really ",
                      str "very ", str "quite ", str "pretty ", []],
               .alts [str "bad ", str "severe ", str "terrible ", str "awful ",
                      str "mild ", str "slight ", str "little ", str "minor ", []],
               .capLazyStar],
     tails := [[.ws1, .lit (str "and")], [.ws0, .lit (str ",")], [.ws0, .eos],
               [.ws1, .lit (str "that")], [.ws1, .lit (str "which")]] },
   { items := [.lit (str "i\x27m feeling "), .capLazyStar],
     tails := [[.ws1, .lit (str "and")], [.ws0, .lit (str ",")], [.ws0, .eos]] },
   { items := [.lit (str "experiencing "), .capLazyStar],
     tails := [[.ws1, .lit (str "and")], [.ws0, .lit (str ",")], [.ws0, .eos]] },
   { items := [.lit (str "my "), .capLazyStar, .lit (str " ")],
     tails := [[.lit (str "hurt"), .optChar 's'], [.lit (str "ache"), .optChar 's'],
               [.lit (str "is sore")], [.lit (str "feel"), .optChar 's', .lit (str " bad")],
               [.lit (str "feel"), .optChar 's', .lit (str " terrible")],
               [.lit (str "really hurt"), .optChar 's']] },
   { items := [.capAlts [str "headache", str "fever", str "nausea", str "vomiting",
                         str "cough", str "pain", str "ache", str "sick",
                         str "hurt", str "hurts"]],
     tails := [[]] },
   { items := [.lit (str "feeling "),
               .capAlts [str "nauseous", str "sick", str "dizzy", str "tired",
                         str "weak", str "feverish"]],
     tails := [[]] },
   { items := [.capAlts [str "itching", str "burning", str "throbbing",
                         str "sharp", str "dull"],
               .lit (str " "),
               .alts [str "pain", str "sensation", str "feeling"]],
     tails := [[]] },
   { items := [.alts [str "really ", str "very ", str "quite ", []],
               .capAlts [str "sick", str "nauseous", str "hurt", str "pain",
                         str "ache", str "fever", str "headache", str "cough"]],
     tails := [[]] },
   { items := [.lit (str "stomach "), .alts [str "really ", str "very ", []]],
     tails := [[.lit (str "hurt"), .optChar 's'], [.lit (str "ache"), .optChar 's'],
               [.lit (str "pain")]] },
   { items := [.lit (str "feel "), .alts [str "really ", str "very ", []],
               .lit (str "sick")],
     tails := [[]] }]

/-- The `symptom_synonyms` replacement table (in dict order). -/
def symptom_synonyms : List (Str × Str) :=
  [(str "hurt", str "pain"), (str "hurts", str "pain"), (str "ache", str "pain"),
   (str "aches", str "pain"), (str "sore", str "pain"), (str "tender", str "pain"),
   (str "throbbing", str "pain"),
   (str "hot", str "fever"), (str "burning up", str "fever"),
   (str "temperature", str "fever"), (str "feverish", str "fever"),
   (str "chills", str "fever"), (str "shivering", str "fever"),
   (str "nausea", str "vomiting"), (str "sick to stomach", str "vomiting"),
   (str "queasy", str "vomiting"), (str "throw up", str "vomiting"),
   (str "upset stomach", str "stomach pain"), (str "tummy ache", str "stomach pain"),
   (str "belly pain", str "stomach pain"),
   (str "stuffy nose", str "runny nose"), (str "congested", str "runny nose"),
   (str "blocked nose", str "runny nose"), (str "sniffles", str "runny nose"),
   (str "wheezing", str "difficulty breathing"),
   (str "short of breath", str "difficulty breathing"),
   (str "rash", str "skin rash"), (str "bumps", str "skin rash"),
   (str "spots", str "skin rash"), (str "red skin", str "skin rash"),
   (str "irritated skin", str "itching"),
   (str "migraine", str "headache"), (str "head pain", str "headache"),
   (str "dizzy", str "headache"), (str "lightheaded", str "headache"),
   (str "scratchy throat", str "sore throat"), (str "throat hurts", str "sore throat"),
   (str "swollen throat", str "sore throat"),
   (str "tired", str "fatigue"), (str "exhausted", str "fatigue"),
   (str "weak", str "fatigue"), (str "no energy", str "fatigue"),
   (str "worn out", str "fatigue")]

/-- Python's `s.replace(old, new)`: replace all non-overlapping occurrences
left to right (fuelled by the string length; `old` is never empty here). -/
def pyReplaceAux (old new : Str) : Str → ℕ → Str
  | s, 0 => s
  | s, fuel + 1 =>
    if old.isPrefixOf s then new ++ pyReplaceAux old new (s.drop old.length) fuel
    else
      match s with
      | [] => []
      | c :: t => c :: pyReplaceAux old new t fuel

/-- Python's `s.replace(old, new)`. -/
def pyReplace (s old new : Str) : Str :=
  if old = [] then s else pyReplaceAux old new s s.length

/-- `_clean_symptom_text`: drop filler words and re-join with single
spaces.  (The two-word filler entry "kind of" can never equal a single
word, exactly as in the source.) -/
def clean_symptom_text (t : Str) : Str :=
  let filler := [str "a", str "an", str "the", str "some", str "really",
                 str "very", str "quite", str "pretty", str "kind of"]
  joinSpace ((splitWords t).filter (fun wd => ¬ filler.contains wd))

/-- The `symptom_mappings` table of `_map_to_known_symptoms` (dict order). -/
def symptom_mappings : List (Str × List Str) :=
  [(str "headache", [str "headache"]), (str "head pain", [str "headache"]),
   (str "nauseous", [str "vomiting"]), (str "sick", [str "vomiting"]),
   (str "queasy", [str "vomiting"]), (str "stomach", [str "stomach pain"]),
   (str "belly", [str "stomach pain"]), (str "tummy", [str "stomach pain"]),
   (str "throat", [str "sore throat"]), (str "nose", [str "runny nose"]),
   (str "stuffy", [str "runny nose"]), (str "congested", [str "runny nose"]),
   (str "temperature", [str "fever"]), (str "hot", [str "fever"]),
   (str "chills", [str "fever"]), (str "shivering", [str "fever"]),
   (str "ache", [str "body pain"]), (str "aches", [str "body pain"]),
   (str "tired", [str "fatigue"]), (str "exhausted", [str "fatigue"]),
   (str "weak", [str "fatigue"]), (str "rash", [str "skin rash"]),
   (str "itchy", [str "itching"]), (str "scratchy", [str "itching"]),
   (str "burning", [str "burning sensation"]), (str "acid", [str "acidity"]),
   (str "heartburn", [str "acidity"])]

/-- `_map_to_known_symptoms`, parametrised by the imported `SYMPTOM_MAP`:
an exact key match returns just that key; otherwise collect the mapping
values for every table key contained in the text, then the four compound
rules, in source order.  (The collected symptoms are returned whether or
not they are `SYMPTOM_MAP` keys, as in the source.) -/
def map_to_known_symptoms (sm : List (Str × Str)) (symptom_text : Str) : List Str :=
  let t := lowerStr symptom_text
  if hasKey sm t then [t]
  else
    let m0 := symptom_mappings.foldl (fun acc p =>
      if substrB p.1 t then acc ++ p.2 else acc) []
    let m1 := m0 ++ (if substrB (str "head") t ∧
        (substrB (str "pain") t ∨ substrB (str "ache") t ∨ substrB (str "hurt") t)
      then [str "headache"] else [])
    let m2 := m1 ++ (if substrB (str "stomach") t ∧
        (substrB (str "pain") t ∨ substrB (str "hurt") t ∨ substrB (str "ache") t)
      then [str "stomach pain"] else [])
    let m3 := m2 ++ (if substrB (str "throat") t ∧
        (substrB (str "pain") t ∨ substrB (str "sore") t ∨ substrB (str "hurt") t)
      then [str "sore throat"] else [])
    m3 ++ (if substrB (str "sick") t ∧
        (substrB (str "stomach") t ∨ substrB (str "nausea") t)
      then [str "vomiting"] else [])

/-- `_extract_symptoms`, parametrised by the imported `SYMPTOM_MAP`:
synonym replacement, direct key containment, the two aggressive fallbacks
(exact key, single-word partial), the regex-pattern pass (each applied only
when everything before found nothing), the three special-case conjunction
rules, then `list(set(...))`. -/
def nlp_extract_symptoms (sm : List (Str × Str)) (text : Str) : List Str :=
  let normalized := symptom_synonyms.foldl (fun t p =>
    if substrB p.1 t then pyReplace t p.1 p.2 else t) text
  let s1 := (sm.map Prod.fst).filter (fun k => substrB k normalized)
  let s2 := s1 ++ (if s1 = [] then
      let cleaned := lowerStr (pstrip normalized)
      if hasKey sm cleaned then [cleaned]
      else
        match splitWords cleaned with
        | [wd] =>
            match (sm.map Prod.fst).find? (fun k => (splitWords k).contains wd) with
            | some k => [k]
            | none => []
        | _ => []
    else [])
  let s3 := s2 ++ (if s2 = [] then
      symptom_patterns.foldl (fun acc p =>
        (re_findall p normalized).foldl (fun acc2 mtch =>
          let cleaned := clean_symptom_text (pstrip mtch)
          if cleaned ≠ [] ∧ (splitWords cleaned).length ≤ 4 then
            acc2 ++ map_to_known_symptoms sm cleaned
          else acc2) acc) []
    else [])
  let s4 := s3 ++ (if substrB (str "stomach") normalized ∧
      (substrB (str "hurt") normalized ∨ substrB (str "pain") normalized)
    then [str "stomach pain"] else [])
  let s5 := s4 ++ (if substrB (str "sick") normalized ∧ substrB (str "stomach") normalized
    then [str "vomiting"] else [])
  let s6 := s5 ++ (if substrB (str "head") normalized ∧
      (substrB (str "hurt") normalized ∨ substrB (str "pain") normalized)
    then [str "headache"] else [])
  s6.dedup

/-! ## Basic lemmas about the embedding primitives -/

theorem substrB_iff {n h : Str} : substrB n h = true ↔ n <:+: h := by
  induction h with
  | nil =>
      simp only [substrB, List.isPrefixOf_iff_prefix, List.infix_nil, List.prefix_nil]
  | cons c t ih =>
      simp only [substrB, Bool.or_eq_true, List.isPrefixOf_iff_prefix, ih,
        List.infix_cons_iff]

theorem infix_trans {a b c : Str} (h1 : a <:+: b) (h2 : b <:+: c) : a <:+: c :=
  h1.trans h2

theorem hasKey_false_lookup {β : Type} {l : List (Str × β)} {k : Str}
    (h : hasKey l k = false) : List.lookup k l = none := by
  induction l with
  | nil => rfl
  | cons p t ih =>
      obtain ⟨k1, v1⟩ := p
      simp only [hasKey, List.map_cons, List.contains_cons, Bool.or_eq_false_iff] at h
      simp only [List.lookup, h.1]
      exact ih h.2

theorem lookup_mem_keys {β : Type} {l : List (Str × β)} {k : Str} {v : β}
    (h : List.lookup k l = some v) : k ∈ l.map Prod.fst := by
  induction l with
  | nil => simp [List.lookup] at h
  | cons p t ih =>
      obtain ⟨k1, v1⟩ := p
      by_cases hk : (k == k1) = true
      · rw [beq_iff_eq] at hk
        subst hk
        rw [List.map_cons]
        exact List.mem_cons_self _ _
      · rw [Bool.not_eq_true] at hk
        simp only [List.lookup, hk] at h
        rw [List.map_cons]
        exact List.mem_cons_of_mem _ (ih h)

theorem foldl_max_init_le (t : List ℚ) : ∀ a : ℚ, a ≤ t.foldl max a := by
  induction t with
  | nil => intro a; simp
  | cons b t ih =>
      intro a
      calc a ≤ max a b := le_max_left a b
        _ ≤ t.foldl max (max a b) := ih (max a b)
        _ = (b :: t).foldl max a := rfl

theorem mem_le_foldl_max (t : List ℚ) : ∀ (a v : ℚ), v ∈ t → v ≤ t.foldl max a := by
  induction t with
  | nil => intro a v hv; simp at hv
  | cons b t ih =>
      intro a v hv
      rcases List.mem_cons.mp hv with h | h
      · subst h
        calc v ≤ max a v := le_max_right a v
          _ ≤ t.foldl max (max a v) := foldl_max_init_le t _
          _ = (v :: t).foldl max a := rfl
      · exact ih (max a b) v h

theorem foldl_max_mem (t : List ℚ) : ∀ a : ℚ, t.foldl max a = a ∨ t.foldl max a ∈ t := by
  induction t with
  | nil => intro a; left; rfl
  | cons b t ih =>
      intro a
      rcases ih (max a b) with h | h
      · rcases max_choice a b with hm | hm
        · left; simpa [hm] using h
        · right
          simp only [List.foldl_cons]
          rw [h, hm]
          exact List.mem_cons_self b t
      · right
        exact List.mem_cons_of_mem b h

theorem le_listMax {l : List ℚ} {v : ℚ} (h : v ∈ l) : v ≤ listMax l := by
  cases l with
  | nil => simp at h
  | cons a t =>
      rcases List.mem_cons.mp h with h | h
      · subst h; exact foldl_max_init_le t v
      · exact mem_le_foldl_max t a v h

theorem listMax_mem {l : List ℚ} (h : l ≠ []) : listMax l ∈ l := by
  cases l with
  | nil => exact absurd rfl h
  | cons a t =>
      rcases foldl_max_mem t a with h' | h'
      · rw [listMax, h']; exact List.mem_cons_self a t
      · exact List.mem_cons_of_mem a h'

theorem addScore_mem_pos {l : List (Str × ℚ)} {d : Str} {v : ℚ}
    (hl : ∀ p ∈ l, 0 < p.2) (hv : 0 < v) : ∀ p ∈ addScore l d v, 0 < p.2 := by
  induction l with
  | nil =>
      intro p hp
      simp only [addScore, List.mem_singleton] at hp
      subst hp; exact hv
  | cons q t ih =>
      intro p hp
      by_cases hq : q.1 = d
      · simp only [addScore, hq, if_pos rfl] at hp
        rcases List.mem_cons.mp hp with h | h
        · subst h
          exact add_pos (hl q (List.mem_cons_self q t)) hv
        · exact hl p (List.mem_cons_of_mem q h)
      · rw [show addScore (q :: t) d v = q :: addScore t d v by
          cases q with
          | mk k x => simp only [addScore, if_neg hq]] at hp
        rcases List.mem_cons.mp hp with h | h
        · subst h; exact hl p (List.mem_cons_self p t)
        · exact ih (fun r hr => hl r (List.mem_cons_of_mem q hr)) p h

theorem addScore_ne_nil (l : List (Str × ℚ)) (d : Str) (v : ℚ) :
    addScore l d v ≠ [] := by
  cases l with
  | nil => simp [addScore]
  | cons q t =>
      cases q with
      | mk k x =>
          by_cases hq : k = d <;> simp [addScore, hq]

theorem symptom_weights_get_pos (ds : List (Str × List Str)) (s : Str) :
    0 < symptom_weights_get ds s := by
  unfold symptom_weights_get
  by_cases h : occurrenceCount ds s = 0
  · simp [h]
  · simp only [h, if_false]
    exact lt_of_lt_of_le zero_lt_one (le_max_left _ _)

theorem symptom_weights_get_ge_one (ds : List (Str × List Str)) (s : Str) :
    1 ≤ symptom_weights_get ds s := by
  unfold symptom_weights_get
  by_cases h : occurrenceCount ds s = 0
  · simp [h]
  · simp only [h, if_false]
    exact le_max_left _ _

theorem toNat_ofNat_valid (n : ℕ) (h : n.isValidChar) : (Char.ofNat n).toNat = n := by
  rw [Char.ofNat, dif_pos h]
  rfl

theorem toLower_idem (c : Char) : (c.toLower).toLower = c.toLower := by
  unfold Char.toLower
  by_cases h : c.toNat ≥ 65 ∧ c.toNat ≤ 90
  · rw [if_pos h]
    have hv : Nat.isValidChar (c.toNat + 32) := by
      left
      have := h.2
      omega
    have ht : (Char.ofNat (c.toNat + 32)).toNat = c.toNat + 32 := toNat_ofNat_valid _ hv
    rw [if_neg]
    rw [ht]
    omega
  · rw [if_neg h, if_neg h]

theorem lowerStr_idem (s : Str) : lowerStr (lowerStr s) = lowerStr s := by
  unfold lowerStr
  rw [List.map_map]
  exact List.map_congr_left (fun c _ => toLower_idem c)

/-! ## Claim C3 -/

/-- Claim C3: `check_emergency` reports `emergency = true` with level
"critical" exactly when some configured danger phrase is a substring of the
lower-cased text (denials included), and `emergency = false` with level
"normal" otherwise; in particular the fallback phrase list fires on
"chest pain" and on "no chest pain". -/
theorem C3_emergency_detection :
    (∀ (es : List Str) (text : Str),
      ((check_emergency es text).emergency = true ∧
       (check_emergency es text).level = "critical") ↔
        ∃ d ∈ es, d <:+: lowerStr text) ∧
    (∀ (es : List Str) (text : Str),
      ((check_emergency es text).emergency = false ∧
       (check_emergency es text).level = "normal") ↔
        ¬ ∃ d ∈ es, d <:+: lowerStr text) ∧
    (check_emergency EMERGENCY_SYMPTOMS_fallback (str "chest pain")).emergency = true ∧
    (check_emergency EMERGENCY_SYMPTOMS_fallback (str "chest pain")).level = "critical" ∧
    (check_emergency EMERGENCY_SYMPTOMS_fallback (str "no chest pain")).emergency = true := by
  have key : ∀ (es : List Str) (text : Str),
      (es.any (fun danger => substrB danger (lowerStr text)) = true) ↔
        ∃ d ∈ es, d <:+: lowerStr text := by
    intro es text
    rw [List.any_eq_true]
    constructor
    · rintro ⟨d, hd, hs⟩
      exact ⟨d, hd, substrB_iff.mp hs⟩
    · rintro ⟨d, hd, hs⟩
      exact ⟨d, hd, substrB_iff.mpr hs⟩
  refine ⟨?_, ?_, by decide, by decide, by decide⟩
  · intro es text
    cases hb : es.any (fun danger => substrB danger (lowerStr text)) with
    | true =>
        simp only [check_emergency, hb, if_true]
        simpa using (key es text).mp hb
    | false =>
        simp only [check_emergency, hb, Bool.false_eq_true, if_false]
        constructor
        · rintro ⟨h, -⟩
          exact absurd h (by simp)
        · intro h
          exact absurd ((key es text).mpr h) (by simp [hb])
  · intro es text
    cases hb : es.any (fun danger => substrB danger (lowerStr text)) with
    | true =>
        simp only [check_emergency, hb, if_true]
        constructor
        · rintro ⟨h, -⟩
          exact absurd h (by simp)
        · intro h
          exact absurd ((key es text).mp hb) h
    | false =>
        simp only [check_emergency, hb, Bool.false_eq_true, if_false]
        constructor
        · intro _
          intro hex
          exact absurd ((key es text).mpr hex) (by simp [hb])
        · intro _
          exact ⟨trivial, trivial⟩

/-! ## Claim C1 -/

/-- Claim C1: whenever `check_emergency` reports an emergency, both pipeline
entry points return the fixed emergency payload: `analyze_symptoms` with
`diagnosis = None`, empty remedies and precautions, and
`advanced_analyze_symptoms` with the emergency dict shape (whose emergency
remedies for the default key "general" are empty), for every choice of
loaded tables — the diagnosis stage is never reached. -/
theorem C1_emergency_precedence
    (es : List Str) (sm : List (Str × Str)) (rdb : List (Str × List Remedy))
    (pdb : List (Str × List String)) (ds : List (Str × List Str))
    (erdb : List (Str × List Remedy)) (epdb : List (Str × List String))
    (text : Str) (h : (check_emergency es text).emergency = true) :
    analyze_symptoms es sm rdb pdb text =
      { emergency := check_emergency es text, diagnosis := none, remedies := [],
        precautions := [],
        warning := some "EMERGENCY DETECTED - Seek immediate medical attention!",
        disclaimer := none } ∧
    advanced_analyze_symptoms es sm ds erdb epdb text =
      .emergency (check_emergency es text) none
        "MEDICAL EMERGENCY DETECTED - Seek immediate professional help!" := by
  constructor
  · simp only [analyze_symptoms, h, if_true]
  · simp only [advanced_analyze_symptoms, h, if_true]
    rfl

/-- Witness for C1 at the fallback tables on a text that contains both an
emergency phrase and ordinary symptom keywords. -/
theorem C1_emergency_precedence_witness :
    (check_emergency EMERGENCY_SYMPTOMS_fallback (str "chest pain and fever and cough")).emergency = true ∧
    analyze_symptoms EMERGENCY_SYMPTOMS_fallback SYMPTOM_MAP_fallback REMEDY_DB_fallback []
        (str "chest pain and fever and cough") =
      { emergency := check_emergency EMERGENCY_SYMPTOMS_fallback (str "chest pain and fever and cough"),
        diagnosis := none, remedies := [], precautions := [],
        warning := some "EMERGENCY DETECTED - Seek immediate medical attention!",
        disclaimer := none } :=
  ⟨by decide,
   (C1_emergency_precedence EMERGENCY_SYMPTOMS_fallback SYMPTOM_MAP_fallback
      REMEDY_DB_fallback [] [] [] [] (str "chest pain and fever and cough") (by decide)).1⟩

/-! ## Claim C8 (corrected) -/

/-- Counterexample to claim C8 as stated: on a load failure,
`load_medical_data` substitutes *empty* tables, not a non-empty hardcoded
default. -/
theorem C8_counterexample :
    load_medical_data none = ([], []) ∧
    ((load_medical_data none).1.length = 0 ∧ (load_medical_data none).2.length = 0) := by
  exact ⟨rfl, by decide⟩

/-- Claim C8 as amended: every loader is total (no exception escapes) and on
a missing/malformed file `load_symptom_map`, `load_emergency_symptoms` and
`load_remedy_database` substitute their hardcoded non-empty fallback tables,
while `load_medical_data` substitutes empty tables; subsequent operations
behave as over the substituted tables (e.g. `diagnose` over the fallback
symptom map resolves "headache"). -/
theorem C8_fallback_behaviour :
    load_symptom_map none = SYMPTOM_MAP_fallback ∧
    SYMPTOM_MAP_fallback.length = 15 ∧
    load_emergency_symptoms none = EMERGENCY_SYMPTOMS_fallback ∧
    EMERGENCY_SYMPTOMS_fallback.length = 8 ∧
    load_remedy_database none = (REMEDY_DB_fallback, []) ∧
    REMEDY_DB_fallback.length = 5 ∧
    load_medical_data none = ([], []) ∧
    (diagnose (load_symptom_map none) (str "headache")).condition = str "stress or dehydration" := by
  refine ⟨rfl, rfl, rfl, rfl, rfl, rfl, rfl, by decide⟩

/-! ## Claim C9 (corrected) -/

/-- Counterexample to claim C9 as stated: the module-level `get_remedies` of
remedies.py looks the condition up exactly as given, with no case folding —
on the fallback database it misses "Viral Infection" although the case-folded
key is present with a non-empty remedy list. -/
theorem C9_counterexample :
    get_remedies REMEDY_DB_fallback (str "Viral Infection") = [] ∧
    get_remedies REMEDY_DB_fallback (lowerStr (str "Viral Infection")) ≠ [] ∧
    get_remedies REMEDY_DB_fallback (str "Viral Infection") ≠
      get_remedies REMEDY_DB_fallback (lowerStr (str "Viral Infection")) := by
  refine ⟨by decide, by decide, by decide⟩

/-- Claim C9 as amended: the enhanced system's lookups key on the case-folded
condition name (and are therefore invariant under lower-casing the
argument), the basic remedies.py lookups key on the raw condition string, and
in all six functions a condition absent from the table yields an empty
collection and never an error (totality is inherent in the model). -/
theorem C9_lookup_behaviour :
    (∀ (db : List (Str × List Remedy)) (c : Str),
      hasKey db c = false → get_remedies db c = []) ∧
    (∀ (pdb : List (Str × List String)) (c : Str),
      hasKey pdb c = false → get_precautions pdb c = []) ∧
    (∀ (db : List (Str × List Remedy)) (c : Str),
      hasKey db (lowerStr c) = false → ers_get_remedies db c = []) ∧
    (∀ (pdb : List (Str × List String)) (c : Str),
      hasKey pdb (lowerStr c) = false → ers_get_precautions pdb c = []) ∧
    (∀ c : Str, hasKey lifestyle_recommendations (lowerStr c) = false →
      get_lifestyle_recommendations c = []) ∧
    (∀ c : Str, hasKey dietary_recommendations (lowerStr c) = false →
      get_dietary_recommendations c = none) ∧
    (∀ (db : List (Str × List Remedy)) (c : Str),
      ers_get_remedies db c = ers_get_remedies db (lowerStr c)) ∧
    (∀ c : Str, get_lifestyle_recommendations c =
      get_lifestyle_recommendations (lowerStr c)) ∧
    (∀ c : Str, get_dietary_recommendations c =
      get_dietary_recommendations (lowerStr c)) := by
  refine ⟨?_, ?_, ?_, ?_, ?_, ?_, ?_, ?_, ?_⟩
  · intro db c h
    simp [get_remedies, hasKey_false_lookup h]
  · intro pdb c h
    simp [get_precautions, hasKey_false_lookup h]
  · intro db c h
    simp [ers_get_remedies, hasKey_false_lookup h]
  · intro pdb c h
    simp [ers_get_precautions, hasKey_false_lookup h]
  · intro c h
    simp [get_lifestyle_recommendations, hasKey_false_lookup h]
  · intro c h
    simp [get_dietary_recommendations, hasKey_false_lookup h]
  · intro db c
    simp [ers_get_remedies, lowerStr_idem]
  · intro c
    simp [get_lifestyle_recommendations, lowerStr_idem]
  · intro c
    simp [get_dietary_recommendations, lowerStr_idem]

/-! ## Claim C2 -/

theorem primary_scores_pos (sm : List (Str × Str)) (ds : List (Str × List Str)) :
    ∀ (symptoms : List Str) (acc : List (Str × ℚ)), (∀ p ∈ acc, 0 < p.2) →
      ∀ p ∈ symptoms.foldl (fun acc s =>
        match List.lookup s sm with
        | some primary_disease => addScore acc primary_disease (symptom_weights_get ds s)
        | none => acc) acc, 0 < p.2 := by
  intro symptoms
  induction symptoms with
  | nil => intro acc hacc p hp; exact hacc p hp
  | cons s t ih =>
      intro acc hacc
      simp only [List.foldl_cons]
      cases hl : List.lookup s sm with
      | none => exact ih acc hacc
      | some d =>
          exact ih (addScore acc d (symptom_weights_get ds s))
            (addScore_mem_pos hacc (symptom_weights_get_pos ds s))

theorem profile_scores_pos (ds0 : List (Str × List Str)) (symptoms : List Str) :
    ∀ (ds : List (Str × List Str)) (acc : List (Str × ℚ)), (∀ p ∈ acc, 0 < p.2) →
      ∀ p ∈ ds.foldl (fun acc p =>
        let matched := p.2.dedup.filter (fun s => symptoms.contains s)
        if matched = [] then acc
        else
          addScore acc p.1
            (((matched.length : ℚ) / (p.2.length : ℚ)) *
              (matched.map (symptom_weights_get ds0)).sum)) acc, 0 < p.2 := by
  intro ds
  induction ds with
  | nil => intro acc hacc p hp; exact hacc p hp
  | cons q t ih =>
      intro acc hacc
      simp only [List.foldl_cons]
      by_cases hm : q.2.dedup.filter (fun s => symptoms.contains s) = []
      · simp only [hm, if_pos rfl]
        exact ih acc (by simpa [hm] using hacc)
      · have hlen : 0 < (q.2.dedup.filter (fun s => symptoms.contains s)).length :=
          List.length_pos.mpr hm
        have hne2 : q.2 ≠ [] := by
          intro he
          apply hm
          rw [he]
          rfl
        have hq2 : 0 < (q.2.length : ℚ) := by
          exact_mod_cast List.length_pos.mpr hne2
        have hv : 0 < ((q.2.dedup.filter (fun s => symptoms.contains s)).length : ℚ) /
            (q.2.length : ℚ) *
            ((q.2.dedup.filter (fun s => symptoms.contains s)).map
              (symptom_weights_get ds0)).sum := by
          apply mul_pos
          · exact div_pos (by exact_mod_cast hlen) hq2
          · apply List.sum_pos
            · intro x hx
              rcases List.mem_map.mp hx with ⟨y, _, hy⟩
              rw [← hy]
              exact symptom_weights_get_pos ds0 y
            · intro hmap
              exact hm (List.map_eq_nil_iff.mp hmap)
        rw [if_neg hm]
        exact ih (addScore acc q.1 _) (addScore_mem_pos hacc hv)

theorem accumulated_scores_pos (sm : List (Str × Str)) (ds : List (Str × List Str))
    (symptoms : List Str) :
    ∀ p ∈ profile_scores ds symptoms (primary_scores sm ds symptoms), 0 < p.2 := by
  exact profile_scores_pos ds symptoms ds (primary_scores sm ds symptoms)
    (primary_scores_pos sm ds symptoms [] (by simp))

theorem normalize_scores_bounds {s2 : List (Str × ℚ)} (hpos : ∀ p ∈ s2, 0 < p.2) :
    ∀ p ∈ normalize_scores s2, 0 < p.2 ∧ p.2 ≤ 1 := by
  intro p hp
  unfold normalize_scores at hp
  by_cases h2 : s2 = []
  · rw [if_pos h2, h2] at hp
    simp at hp
  · rw [if_neg h2] at hp
    rcases List.mem_map.mp hp with ⟨q, hq, he⟩
    have hqv : q.2 ∈ s2.map Prod.snd := List.mem_map.mpr ⟨q, hq, rfl⟩
    have hmax_mem : listMax (s2.map Prod.snd) ∈ s2.map Prod.snd :=
      listMax_mem (by simpa using h2)
    rcases List.mem_map.mp hmax_mem with ⟨q0, hq0, he0⟩
    have hmax_pos : 0 < listMax (s2.map Prod.snd) := by
      rw [← he0]
      exact hpos q0 hq0
    constructor
    · rw [← he]
      exact div_pos (hpos q hq) hmax_pos
    · rw [← he]
      exact div_le_one_of_le₀ (le_listMax hqv) (le_of_lt hmax_pos)

theorem normalize_scores_attains_one {s2 : List (Str × ℚ)}
    (hpos : ∀ p ∈ s2, 0 < p.2) (h2 : s2 ≠ []) :
    ∃ d, (d, (1 : ℚ)) ∈ normalize_scores s2 := by
  have hmax_mem : listMax (s2.map Prod.snd) ∈ s2.map Prod.snd :=
    listMax_mem (by simpa using h2)
  rcases List.mem_map.mp hmax_mem with ⟨q0, hq0, he0⟩
  have hmax_pos : 0 < listMax (s2.map Prod.snd) := by
    rw [← he0]
    exact hpos q0 hq0
  refine ⟨q0.1, ?_⟩
  unfold normalize_scores
  rw [if_neg h2]
  refine List.mem_map.mpr ⟨q0, hq0, ?_⟩
  rw [he0, div_self (ne_of_gt hmax_pos)]

theorem calc_prob_mem_bounds (sm : List (Str × Str)) (ds : List (Str × List Str))
    (symptoms : List Str) :
    ∀ p ∈ calculate_disease_probability sm ds symptoms, 0 < p.2 ∧ p.2 ≤ 1 := by
  intro p hp
  unfold calculate_disease_probability at hp
  by_cases hs : symptoms = []
  · rw [if_pos hs] at hp
    simp at hp
  · rw [if_neg hs] at hp
    exact normalize_scores_bounds (accumulated_scores_pos sm ds symptoms) p hp

theorem calc_prob_attains_one {sm : List (Str × Str)} {ds : List (Str × List Str)}
    {symptoms : List Str} (h : calculate_disease_probability sm ds symptoms ≠ []) :
    ∃ d, (d, (1 : ℚ)) ∈ calculate_disease_probability sm ds symptoms := by
  unfold calculate_disease_probability at *
  by_cases hs : symptoms = []
  · rw [if_pos hs] at h
    exact absurd rfl h
  · rw [if_neg hs] at *
    have h2 : profile_scores ds symptoms (primary_scores sm ds symptoms) ≠ [] := by
      intro he
      rw [he] at h
      exact h rfl
    exact normalize_scores_attains_one (accumulated_scores_pos sm ds symptoms) h2

/-- Claim C2: every value of the mapping returned by
`calculate_disease_probability` lies in [0, 1], and when the mapping is
non-empty some condition's value is exactly 1 (the maximal accumulated
score divided by itself). -/
theorem C2_scores_normalized (sm : List (Str × Str)) (ds : List (Str × List Str))
    (symptoms : List Str) :
    (∀ p ∈ calculate_disease_probability sm ds symptoms, 0 ≤ p.2 ∧ p.2 ≤ 1) ∧
    (calculate_disease_probability sm ds symptoms ≠ [] →
      ∃ d, (d, (1 : ℚ)) ∈ calculate_disease_probability sm ds symptoms) := by
  constructor
  · intro p hp
    have := calc_prob_mem_bounds sm ds symptoms p hp
    exact ⟨le_of_lt this.1, this.2⟩
  · intro h
    exact calc_prob_attains_one h

/-- Witness for C2 on the fallback symptom map with one listed symptom. -/
theorem C2_scores_normalized_witness :
    calculate_disease_probability SYMPTOM_MAP_fallback [] [str "fever"] ≠ [] ∧
    ∃ d, (d, (1 : ℚ)) ∈ calculate_disease_probability SYMPTOM_MAP_fallback [] [str "fever"] :=
  ⟨by decide,
   (C2_scores_normalized SYMPTOM_MAP_fallback [] [str "fever"]).2 (by decide)⟩

/-! ## Claim C4 -/

/-- Number of conditions whose profile contains the symptom `s` (the
denominator named by the specification). -/
def conditionCount (ds : List (Str × List Str)) (s : Str) : ℕ :=
  (ds.filter (fun p => decide (s ∈ p.2))).length

theorem str_count_eq_one {l : List Str} {a : Str} (hn : l.Nodup) (hm : a ∈ l) :
    l.count a = 1 := by
  induction l with
  | nil => simp at hm
  | cons b t ih =>
      rw [List.nodup_cons] at hn
      rcases List.mem_cons.mp hm with h | h
      · subst h
        rw [List.count_cons, List.count_eq_zero_of_not_mem hn.1]
        simp
      · have hba : ¬ (b == a) = true := by
          rw [beq_iff_eq]
          intro he
          subst he
          exact hn.1 h
        rw [List.count_cons, ih hn.2 h]
        simp [hba]

theorem occurrenceCount_eq_conditionCount {ds : List (Str × List Str)} {s : Str}
    (hprof : ∀ p ∈ ds, p.2.Nodup) :
    occurrenceCount ds s = conditionCount ds s := by
  induction ds with
  | nil => rfl
  | cons p t ih =>
      have ht : ∀ q ∈ t, q.2.Nodup := fun q hq => hprof q (List.mem_cons_of_mem p hq)
      by_cases hm : s ∈ p.2
      · have hc : p.2.count s = 1 :=
          str_count_eq_one (hprof p (List.mem_cons_self p t)) hm
        simp only [occurrenceCount, conditionCount, List.map_cons, List.sum_cons,
          List.filter_cons, decide_eq_true hm, if_true, List.length_cons] at *
        rw [hc, ih ht]
        omega
      · have hc : p.2.count s = 0 := List.count_eq_zero_of_not_mem hm
        simp only [occurrenceCount, conditionCount, List.map_cons, List.sum_cons,
          List.filter_cons, decide_eq_false hm, Bool.false_eq_true, if_false,
          List.length_cons] at *
        rw [hc, ih ht]
        simp

theorem occurrenceCount_pos_ne_nil {ds : List (Str × List Str)} {s : Str}
    (h : 1 ≤ occurrenceCount ds s) : ds ≠ [] := by
  intro he
  subst he
  simp [occurrenceCount] at h

/-- Claim C4: for every symptom occurring in some condition profile (taking
profiles as duplicate-free, per the data model), the stored weight is
`max(1, total_condition_count / count_of_conditions_containing_symptom)`;
every weight is at least 1, a symptom in exactly one profile weighs the
total condition count, and a symptom in every profile weighs exactly 1. -/
theorem C4_symptom_weights (ds : List (Str × List Str))
    (hprof : ∀ p ∈ ds, p.2.Nodup) (s : Str)
    (hocc : 1 ≤ occurrenceCount ds s) :
    symptom_weights_get ds s = max 1 ((ds.length : ℚ) / (conditionCount ds s : ℚ)) ∧
    1 ≤ symptom_weights_get ds s ∧
    (conditionCount ds s = 1 → symptom_weights_get ds s = (ds.length : ℚ)) ∧
    ((∀ p ∈ ds, s ∈ p.2) → symptom_weights_get ds s = 1) := by
  have hee : occurrenceCount ds s = conditionCount ds s :=
    occurrenceCount_eq_conditionCount hprof
  have hne : occurrenceCount ds s ≠ 0 := by omega
  have hlen : 1 ≤ ds.length := by
    have := occurrenceCount_pos_ne_nil hocc
    cases ds with
    | nil => exact absurd rfl this
    | cons _ _ => simp
  refine ⟨?_, symptom_weights_get_ge_one ds s, ?_, ?_⟩
  · unfold symptom_weights_get
    simp only [hne, if_false]
    rw [hee]
  · intro h1
    unfold symptom_weights_get
    simp only [hne, if_false]
    rw [hee, h1]
    have : (ds.length : ℚ) / (1 : ℕ) = (ds.length : ℚ) := by norm_num
    rw [this, max_eq_right (by exact_mod_cast hlen)]
  · intro hall
    have hcl : conditionCount ds s = ds.length := by
      unfold conditionCount
      rw [List.filter_eq_self.mpr (fun p hp => decide_eq_true (hall p hp))]
    unfold symptom_weights_get
    simp only [hne, if_false]
    rw [hee, hcl, div_self (Nat.cast_ne_zero.mpr (by omega)), max_self]

/-- Witness for C4 at a concrete two-condition table. -/
theorem C4_symptom_weights_witness :
    (∀ p ∈ [(str "a", [str "s"]), (str "b", [str "s", str "t"])], p.2.Nodup) ∧
    1 ≤ occurrenceCount [(str "a", [str "s"]), (str "b", [str "s", str "t"])] (str "t") ∧
    (conditionCount [(str "a", [str "s"]), (str "b", [str "s", str "t"])] (str "t") = 1 →
      symptom_weights_get [(str "a", [str "s"]), (str "b", [str "s", str "t"])] (str "t") =
        (([(str "a", [str "s"]), (str "b", [str "s", str "t"])].length : ℚ))) :=
  ⟨by decide, by decide,
   (C4_symptom_weights [(str "a", [str "s"]), (str "b", [str "s", str "t"])]
      (by decide) (str "t") (by decide)).2.2.1⟩

/-! ## Claim C5 -/

/-- Rank of a confidence label in the order
very low < low < medium < high < very high. -/
def label_rank (s : String) : ℕ :=
  if s = "very low" then 0
  else if s = "low" then 1
  else if s = "medium" then 2
  else if s = "high" then 3
  else if s = "very high" then 4
  else 0

theorem label_rank_confidence (s : ℚ) (n : ℕ) :
    label_rank (get_confidence_level s n) =
      if 0.8 ≤ s ∧ 3 ≤ n then 4
      else if 0.6 ≤ s ∧ 2 ≤ n then 3
      else if 0.4 ≤ s then 2
      else if 0.2 ≤ s then 1
      else 0 := by
  unfold get_confidence_level
  split_ifs <;> rfl

theorem rank_ge_one {s : ℚ} (n : ℕ) (h : 0.2 ≤ s) :
    1 ≤ label_rank (get_confidence_level s n) := by
  rw [label_rank_confidence]
  split_ifs <;> norm_num

theorem rank_ge_two {s : ℚ} (n : ℕ) (h : 0.4 ≤ s) :
    2 ≤ label_rank (get_confidence_level s n) := by
  rw [label_rank_confidence]
  split_ifs <;> norm_num

theorem rank_ge_three {s : ℚ} {n : ℕ} (h1 : 0.6 ≤ s) (h2 : 2 ≤ n) :
    3 ≤ label_rank (get_confidence_level s n) := by
  rw [label_rank_confidence]
  split_ifs with hA hB <;> first | exact absurd ⟨h1, h2⟩ hB | norm_num

theorem rank_le_four (s : ℚ) (n : ℕ) :
    label_rank (get_confidence_level s n) ≤ 4 := by
  rw [label_rank_confidence]
  split_ifs <;> norm_num

/-- Claim C5: for a fixed symptom count, the confidence label assigned by
the threshold table of `get_confidence_level` is monotone non-decreasing in
the top score, under the order very low < low < medium < high < very high. -/
theorem C5_confidence_monotone (s₁ s₂ : ℚ) (n : ℕ) (h : s₁ ≤ s₂) :
    label_rank (get_confidence_level s₁ n) ≤ label_rank (get_confidence_level s₂ n) := by
  rw [label_rank_confidence s₁ n]
  split_ifs with hA hB hC hD
  · rw [label_rank_confidence]
    rw [if_pos ⟨le_trans hA.1 h, hA.2⟩]
  · exact rank_ge_three (le_trans hB.1 h) hB.2
  · exact rank_ge_two n (le_trans hC h)
  · exact rank_ge_one n (le_trans hD h)
  · exact Nat.zero_le _

/-- Witness for C5 at concrete scores and count. -/
theorem C5_confidence_monotone_witness :
    ((0.3 : ℚ) ≤ 0.9) ∧
    label_rank (get_confidence_level 0.3 2) ≤ label_rank (get_confidence_level 0.9 2) :=
  ⟨by norm_num, C5_confidence_monotone 0.3 0.9 2 (by norm_num)⟩

/-- Witness for C9 (amended) at a concrete absent condition name. -/
theorem C9_lookup_behaviour_witness :
    (hasKey REMEDY_DB_fallback (str "No Such Condition") = false ∧
      get_remedies REMEDY_DB_fallback (str "No Such Condition") = []) ∧
    (hasKey lifestyle_recommendations (lowerStr (str "No Such Condition")) = false ∧
      get_lifestyle_recommendations (str "No Such Condition") = []) ∧
    (hasKey dietary_recommendations (lowerStr (str "No Such Condition")) = false ∧
      get_dietary_recommendations (str "No Such Condition") = none) :=
  ⟨⟨by decide, C9_lookup_behaviour.1 REMEDY_DB_fallback (str "No Such Condition") (by decide)⟩,
   ⟨by decide, (C9_lookup_behaviour.2.2.2.2.1) (str "No Such Condition") (by decide)⟩,
   ⟨by decide, (C9_lookup_behaviour.2.2.2.2.2.1) (str "No Such Condition") (by decide)⟩⟩

/-! ## Claim C10 -/

theorem pyRound3_one : pyRound3 1 = 1 := by
  unfold pyRound3
  norm_num

theorem gcl_one (n : ℕ) : get_confidence_level 1 n =
    (if 3 ≤ n then "very high" else if n = 2 then "high" else "medium") := by
  unfold get_confidence_level
  by_cases h3 : 3 ≤ n
  · rw [if_pos ⟨by norm_num, h3⟩, if_pos h3]
  · rw [if_neg (by intro hc; exact h3 hc.2), if_neg h3]
    by_cases h2 : n = 2
    · rw [if_pos ⟨by norm_num, by omega⟩, if_pos h2]
    · rw [if_neg (fun hc => absurd hc.2 (by omega)), if_pos (by norm_num), if_neg h2]

theorem sorted_head_score_one {sm : List (Str × Str)} {ds : List (Str × List Str)}
    {symptoms : List Str} {h0 : Str × ℚ} {t0 : List (Str × ℚ)}
    (hs : (calculate_disease_probability sm ds symptoms).mergeSort
        (fun a b => decide (b.2 ≤ a.2)) = h0 :: t0) :
    h0.2 = 1 := by
  have hperm : ((calculate_disease_probability sm ds symptoms).mergeSort
      (fun a b => decide (b.2 ≤ a.2))).Perm (calculate_disease_probability sm ds symptoms) :=
    List.mergeSort_perm _ _
  have hne : calculate_disease_probability sm ds symptoms ≠ [] := by
    intro he
    rw [he] at hs
    simp [List.mergeSort] at hs
  have hpair : List.Pairwise (fun (a b : Str × ℚ) => decide (b.2 ≤ a.2) = true)
      ((calculate_disease_probability sm ds symptoms).mergeSort
        (fun a b => decide (b.2 ≤ a.2))) := by
    apply List.sorted_mergeSort
    · intro a b c hab hbc
      simp only [decide_eq_true_eq] at *
      exact le_trans hbc hab
    · intro a b
      simp only [Bool.or_eq_true, decide_eq_true_eq]
      exact le_total b.2 a.2
  rcases calc_prob_attains_one hne with ⟨d, hd⟩
  have hd' : (d, (1:ℚ)) ∈ h0 :: t0 := by
    rw [← hs]
    exact hperm.mem_iff.mpr hd
  have h0mem : h0 ∈ calculate_disease_probability sm ds symptoms := by
    apply hperm.mem_iff.mp
    rw [hs]
    exact List.mem_cons_self _ _
  have hle1 : h0.2 ≤ 1 := (calc_prob_mem_bounds sm ds symptoms h0 h0mem).2
  rcases List.mem_cons.mp hd' with he | he
  · rw [← he]
  · rw [hs] at hpair
    have := (List.pairwise_cons.mp hpair).1 (d, 1) he
    simp only [decide_eq_true_eq] at this
    exact le_antisymm hle1 this

/-- Claim C10: whenever `advanced_diagnose` reports a found diagnosis, the
primary entry's reported score is exactly 1 (the descending ranking puts the
max-normalized top condition first and `round(1.0, 3) = 1.0`), and its
confidence label therefore depends only on the number of extracted
symptoms: "very high" for 3 or more, "high" for exactly 2, "medium"
otherwise. -/
theorem C10_primary_diagnosis (sm : List (Str × Str)) (ds : List (Str × List Str))
    (text : Str) (p : DiffEntry) (rest : List DiffEntry) (e : List Str) (n : ℕ)
    (h : advanced_diagnose sm ds text = .diagnosed p rest e n) :
    p.score = 1 ∧
    p.confidence = (if 3 ≤ e.length then "very high"
      else if e.length = 2 then "high" else "medium") ∧
    n = e.length := by
  unfold advanced_diagnose at h
  by_cases hs : extract_symptoms_from_text sm text = []
  · rw [if_pos hs] at h
    exact absurd h (by simp)
  · rw [if_neg hs] at h
    cases hd : get_differential_diagnosis sm ds (extract_symptoms_from_text sm text) 3 with
    | nil => rw [hd] at h; exact absurd h (by simp)
    | cons q rest' =>
        rw [hd] at h
        injection h with hq hrest he hn
        subst hq
        subst he
        subst hn
        unfold get_differential_diagnosis at hd
        cases hsort : (calculate_disease_probability sm ds
            (extract_symptoms_from_text sm text)).mergeSort
            (fun a b => decide (b.2 ≤ a.2)) with
        | nil => rw [hsort] at hd; exact absurd hd (by simp)
        | cons h0 t0 =>
            rw [hsort] at hd
            have htake : (h0 :: t0).take 3 = h0 :: t0.take 2 := rfl
            rw [htake, List.enum_cons, List.map_cons] at hd
            injection hd with hq1 hrest1
            have hone : h0.2 = 1 := sorted_head_score_one hsort
            rw [← hq1]
            refine ⟨?_, ?_, rfl⟩
            · show (diff_entry ds (extract_symptoms_from_text sm text) (0, h0)).score = 1
              unfold diff_entry
              show pyRound3 h0.2 = 1
              rw [hone, pyRound3_one]
            · show (diff_entry ds (extract_symptoms_from_text sm text) (0, h0)).confidence = _
              unfold diff_entry
              show get_confidence_level h0.2 (extract_symptoms_from_text sm text).length = _
              rw [hone, gcl_one]

/-- Witness for C10: a one-symptom input over a one-entry symptom map
reaches the diagnosed branch; by the claim the score is 1 and the label
(for one extracted symptom) is "medium". -/
theorem C10_witness : ∃ (p : DiffEntry) (rest : List DiffEntry) (e : List Str) (n : ℕ),
    advanced_diagnose [(str "fever", str "viral infection")] [] (str "fever") =
      .diagnosed p rest e n ∧ p.score = 1 ∧ p.confidence = "medium" := by
  have hnil : calculate_disease_probability [(str "fever", str "viral infection")] []
      (extract_symptoms_from_text [(str "fever", str "viral infection")] (str "fever")) ≠ [] := by
    decide
  have hex : ∃ (p : DiffEntry) (rest : List DiffEntry),
      advanced_diagnose [(str "fever", str "viral infection")] [] (str "fever") =
        .diagnosed p rest
          (extract_symptoms_from_text [(str "fever", str "viral infection")] (str "fever"))
          (extract_symptoms_from_text [(str "fever", str "viral infection")] (str "fever")).length := by
    unfold advanced_diagnose
    rw [if_neg (by decide)]
    cases hd : get_differential_diagnosis [(str "fever", str "viral infection")] []
        (extract_symptoms_from_text [(str "fever", str "viral infection")] (str "fever")) 3 with
    | nil =>
        exfalso
        unfold get_differential_diagnosis at hd
        rw [List.map_eq_nil_iff] at hd
        have h2 := List.take_eq_nil_iff.mp (by
          cases hq : List.take 3 ((calculate_disease_probability
              [(str "fever", str "viral infection")] []
              (extract_symptoms_from_text [(str "fever", str "viral infection")]
                (str "fever"))).mergeSort (fun a b => decide (b.2 ≤ a.2))) with
          | nil => rfl
          | cons x xs => rw [hq] at hd; simp [List.enum_cons] at hd)
        rcases h2 with h2 | h2
        · exact absurd h2 (by norm_num)
        · have := @List.length_mergeSort _ (fun (a b : Str × ℚ) => decide (b.2 ≤ a.2))
            (calculate_disease_probability [(str "fever", str "viral infection")] []
              (extract_symptoms_from_text [(str "fever", str "viral infection")] (str "fever")))
          rw [h2] at this
          exact hnil (List.length_eq_zero.mp this.symm)
    | cons q rest' =>
        exact ⟨q, rest', rfl⟩
  obtain ⟨p, rest, hp⟩ := hex
  have hc := C10_primary_diagnosis _ _ _ _ _ _ _ hp
  refine ⟨p, rest, _, _, hp, hc.1, ?_⟩
  rw [hc.2.1]
  decide


/-! ## Claim C7 -/

theorem contains_true_mem {l : List Str} {a : Str} (h : l.contains a = true) : a ∈ l := by
  simpa using h

theorem mem_contains_true {l : List Str} {a : Str} (h : a ∈ l) : l.contains a = true := by
  simpa using h

theorem lookup_isSome_of_mem_keys {β : Type} {l : List (Str × β)} {k : Str}
    (h : k ∈ l.map Prod.fst) : (List.lookup k l).isSome = true := by
  induction l with
  | nil => simp at h
  | cons p t ih =>
      obtain ⟨k1, v1⟩ := p
      rw [List.map_cons] at h
      by_cases hk : (k == k1) = true
      · simp [List.lookup, hk]
      · rcases List.mem_cons.mp h with he | he
        · rw [beq_iff_eq] at hk
          exact absurd he.symm (fun hx => hk hx.symm)
        · rw [Bool.not_eq_true] at hk
          simp only [List.lookup, hk]
          exact ih he

theorem extract_mem_keys (sm : List (Str × Str)) (text : Str) :
    ∀ x ∈ extract_symptoms_from_text sm text, x ∈ sm.map Prod.fst := by
  intro x hx
  unfold extract_symptoms_from_text at hx
  rw [List.mem_dedup] at hx
  have main : ∀ (vl : List (Str × List Str)) (acc : List Str),
      (∀ y ∈ acc, y ∈ sm.map Prod.fst) →
      ∀ y ∈ vl.foldl (fun acc p =>
        if acc.contains p.1 then acc
        else
          match p.2.find? (fun v => substrB v (pstrip (lowerStr text))) with
          | some _ => if hasKey sm p.1 then acc ++ [p.1] else acc
          | none => acc) acc, y ∈ sm.map Prod.fst := by
    intro vl
    induction vl with
    | nil => intro acc hacc y hy; exact hacc y hy
    | cons p t ih =>
        intro acc hacc y hy
        rw [List.foldl_cons] at hy
        by_cases hc : acc.contains p.1 = true
        · rw [if_pos hc] at hy
          exact ih acc hacc y hy
        · rw [Bool.not_eq_true] at hc
          rw [if_neg (by rw [hc]; exact Bool.false_ne_true)] at hy
          cases hf : p.2.find? (fun v => substrB v (pstrip (lowerStr text))) with
          | none =>
              rw [hf] at hy
              exact ih acc hacc y hy
          | some v =>
              rw [hf] at hy
              by_cases hk : hasKey sm p.1 = true
              · rw [if_pos hk] at hy
                refine ih _ ?_ y hy
                intro z hz
                rcases List.mem_append.mp hz with hz | hz
                · exact hacc z hz
                · rw [List.mem_singleton] at hz
                  subst hz
                  exact contains_true_mem hk
              · rw [if_neg hk] at hy
                exact ih acc hacc y hy
  refine main symptom_variations _ ?_ x hx
  intro y hy
  exact (List.mem_filter.mp hy).1

theorem primary_scores_ne_nil {sm : List (Str × Str)} (ds : List (Str × List Str)) :
    ∀ (symptoms : List Str) (acc : List (Str × ℚ)),
      (acc ≠ [] ∨ ∃ s ∈ symptoms, (List.lookup s sm).isSome = true) →
      symptoms.foldl (fun acc s =>
        match List.lookup s sm with
        | some primary_disease => addScore acc primary_disease (symptom_weights_get ds s)
        | none => acc) acc ≠ [] := by
  intro symptoms
  induction symptoms with
  | nil =>
      intro acc h
      rcases h with h | h
      · exact h
      · simp at h
  | cons s t ih =>
      intro acc h
      rw [List.foldl_cons]
      cases hl : List.lookup s sm with
      | some d => exact ih _ (Or.inl (addScore_ne_nil acc d _))
      | none =>
          rcases h with h | h
          · exact ih acc (Or.inl h)
          · rcases h with ⟨s0, hs0, hsome⟩
            rcases List.mem_cons.mp hs0 with he | he
            · subst he
              rw [hl] at hsome
              simp at hsome
            · exact ih acc (Or.inr ⟨s0, he, hsome⟩)

theorem profile_scores_ne_nil (ds : List (Str × List Str)) (symptoms : List Str)
    {init : List (Str × ℚ)} (h : init ≠ []) :
    profile_scores ds symptoms init ≠ [] := by
  unfold profile_scores
  have main : ∀ (dl : List (Str × List Str)) (acc : List (Str × ℚ)), acc ≠ [] →
      dl.foldl (fun acc p =>
        let matched := p.2.dedup.filter (fun s => symptoms.contains s)
        if matched = [] then acc
        else
          addScore acc p.1
            (((matched.length : ℚ) / (p.2.length : ℚ)) *
              (matched.map (symptom_weights_get ds)).sum)) acc ≠ [] := by
    intro dl
    induction dl with
    | nil => intro acc hacc; exact hacc
    | cons p t ih =>
        intro acc hacc
        rw [List.foldl_cons]
        by_cases hm : p.2.dedup.filter (fun s => symptoms.contains s) = []
        · rw [if_pos hm]
          exact ih acc hacc
        · rw [if_neg hm]
          exact ih _ (addScore_ne_nil acc p.1 _)
  exact main ds init h

theorem calc_prob_ne_nil {sm : List (Str × Str)} {ds : List (Str × List Str)}
    {symptoms : List Str} (hne : symptoms ≠ [])
    (hkeys : ∀ s ∈ symptoms, s ∈ sm.map Prod.fst) :
    calculate_disease_probability sm ds symptoms ≠ [] := by
  unfold calculate_disease_probability
  rw [if_neg hne]
  have hprim : primary_scores sm ds symptoms ≠ [] := by
    unfold primary_scores
    apply primary_scores_ne_nil
    right
    cases symptoms with
    | nil => exact absurd rfl hne
    | cons s t =>
        exact ⟨s, List.mem_cons_self s t,
          lookup_isSome_of_mem_keys (hkeys s (List.mem_cons_self s t))⟩
  have hprof : profile_scores ds symptoms (primary_scores sm ds symptoms) ≠ [] :=
    profile_scores_ne_nil ds symptoms hprim
  unfold normalize_scores
  rw [if_neg hprof]
  intro hmap
  exact hprof (List.map_eq_nil_iff.mp hmap)

theorem differential_ne_nil {sm : List (Str × Str)} {ds : List (Str × List Str)}
    {symptoms : List Str} (h : calculate_disease_probability sm ds symptoms ≠ []) :
    get_differential_diagnosis sm ds symptoms 3 ≠ [] := by
  unfold get_differential_diagnosis
  cases hms : (calculate_disease_probability sm ds symptoms).mergeSort
      (fun a b => decide (b.2 ≤ a.2)) with
  | nil =>
      exfalso
      have := @List.length_mergeSort _ (fun (a b : Str × ℚ) => decide (b.2 ≤ a.2))
        (calculate_disease_probability sm ds symptoms)
      rw [hms] at this
      exact h (List.length_eq_zero.mp this.symm)
  | cons x xs =>
      simp [List.enum_cons]

/-- Claim C7 (amended): when extraction finds no symptoms, advanced_diagnose
returns the structured unknown result with the common-symptom suggestions
filtered by symptom-map membership (length at most 14); when extraction
finds symptoms a diagnosis is always produced (every extracted symptom is a
symptom-map key, so some condition always scores), so the no-match unknown
branch never fires. -/
theorem C7_unknown_handling :
    (∀ (sm : List (Str × Str)) (ds : List (Str × List Str)) (text : Str),
      extract_symptoms_from_text sm text = [] →
        advanced_diagnose sm ds text =
          .unknown_no_symptoms (str "unknown") "very low"
            "No recognizable symptoms found. Please describe your symptoms more specifically."
            [] [] (get_symptom_suggestions sm) ∧
        (get_symptom_suggestions sm).length ≤ 14) ∧
    (∀ (sm : List (Str × Str)) (ds : List (Str × List Str)) (text : Str),
      extract_symptoms_from_text sm text ≠ [] →
        ∃ (p : DiffEntry) (rest : List DiffEntry),
          advanced_diagnose sm ds text =
            .diagnosed p rest (extract_symptoms_from_text sm text)
              (extract_symptoms_from_text sm text).length) := by
  constructor
  · intro sm ds text h
    constructor
    · unfold advanced_diagnose
      rw [if_pos h]
    · exact List.length_filter_le _ _
  · intro sm ds text h
    unfold advanced_diagnose
    rw [if_neg h]
    have hdne : get_differential_diagnosis sm ds (extract_symptoms_from_text sm text) 3 ≠ [] :=
      differential_ne_nil (calc_prob_ne_nil h (extract_mem_keys sm text))
    cases hd : get_differential_diagnosis sm ds (extract_symptoms_from_text sm text) 3 with
    | nil => exact absurd hd hdne
    | cons q rest' => exact ⟨q, rest', rfl⟩

/-- Counterexample to claim C7 as stated: with the tables the source
installs after a data-load failure (both empty), extraction finds nothing
and the returned suggestion list is empty — not non-empty — on both of the
claim's example inputs. -/
theorem C7_counterexample :
    advanced_diagnose (load_medical_data none).1 (load_medical_data none).2 (str "") =
      .unknown_no_symptoms (str "unknown") "very low"
        "No recognizable symptoms found. Please describe your symptoms more specifically."
        [] [] [] ∧
    advanced_diagnose (load_medical_data none).1 (load_medical_data none).2
        (str "xyzzy unrelated text") =
      .unknown_no_symptoms (str "unknown") "very low"
        "No recognizable symptoms found. Please describe your symptoms more specifically."
        [] [] [] ∧
    get_symptom_suggestions (load_medical_data none).1 = [] := by
  refine ⟨by decide, by decide, by decide⟩

/-- Witness for C7 (amended): the empty-extraction branch on the fallback
symptom map, and the always-diagnosed branch on a recognised symptom. -/
theorem C7_unknown_handling_witness :
    (extract_symptoms_from_text SYMPTOM_MAP_fallback (str "xyzzy unrelated text") = [] ∧
      advanced_diagnose SYMPTOM_MAP_fallback [] (str "xyzzy unrelated text") =
        .unknown_no_symptoms (str "unknown") "very low"
          "No recognizable symptoms found. Please describe your symptoms more specifically."
          [] [] (get_symptom_suggestions SYMPTOM_MAP_fallback)) ∧
    (extract_symptoms_from_text SYMPTOM_MAP_fallback (str "sore throat") ≠ [] ∧
      ∃ (p : DiffEntry) (rest : List DiffEntry),
        advanced_diagnose SYMPTOM_MAP_fallback [] (str "sore throat") =
          .diagnosed p rest (extract_symptoms_from_text SYMPTOM_MAP_fallback (str "sore throat"))
            (extract_symptoms_from_text SYMPTOM_MAP_fallback (str "sore throat")).length) :=
  ⟨⟨by decide,
    (C7_unknown_handling.1 SYMPTOM_MAP_fallback [] (str "xyzzy unrelated text") (by decide)).1⟩,
   ⟨by decide,
    C7_unknown_handling.2 SYMPTOM_MAP_fallback [] (str "sore throat") (by decide)⟩⟩

end SproutAI

/-! ## Claim C6: idempotence of symptom extraction

The claim quantifies over both extractors.  The NLP processor's
`_extract_symptoms` violates it: synonym replacement rewrites "sore" to
"pain" inside the returned canonical phrase "sore throat", so re-extracting
from the space-joined output loses that symptom.  For the advanced engine's
`extract_symptoms_from_text` over its built-in lexicon the fixed point does
hold, proved below: every returned phrase is a symptom-map key, keys survive
the lower/strip preprocessing, no key or variation phrase can span a space
boundary of the join, and the variation pass adds nothing on a join of keys. -/

namespace SproutAI

/-- Claim C6 (counterexample): `_extract_symptoms` of the NLP processor is
not a fixed point under re-extraction: on "scratchy throat and fever" it
returns the set of "fever" and "sore throat", but re-extracting from the
space-join "fever sore throat" returns only "fever" — "sore" has been
rewritten to "pain" by synonym replacement, destroying "sore throat". -/
theorem C6_counterexample :
    nlp_extract_symptoms SYMPTOM_MAP_fallback (str "scratchy throat and fever") =
      [str "fever", str "sore throat"] ∧
    nlp_extract_symptoms SYMPTOM_MAP_fallback
      (joinSpace [str "fever", str "sore throat"]) = [str "fever"] ∧
    str "sore throat" ∉ nlp_extract_symptoms SYMPTOM_MAP_fallback
      (joinSpace [str "fever", str "sore throat"]) := by decide

theorem prefix_append_cases {α : Type} {p x y : List α} (h : p <+: x ++ y) :
    p <+: x ∨ x <+: p := by
  by_cases hl : p.length ≤ x.length
  · exact Or.inl (List.prefix_of_prefix_length_le h (List.prefix_append x y) hl)
  · exact Or.inr (List.prefix_of_prefix_length_le (List.prefix_append x y) h (by omega))

theorem infix_append_cases {α : Type} {w x y : List α} (h : w <:+: x ++ y) :
    w <:+: x ∨ w <:+: y ∨
      ∃ w1 w2, w = w1 ++ w2 ∧ w1 ≠ [] ∧ w2 ≠ [] ∧ w1 <:+ x ∧ w2 <+: y := by
  obtain ⟨s, t, hst⟩ := h
  by_cases h1 : s.length + w.length ≤ x.length
  · left
    have hsw : s ++ w <+: x ++ y := ⟨t, by rw [← hst, List.append_assoc]⟩
    have hsx : s ++ w <+: x :=
      List.prefix_of_prefix_length_le hsw (List.prefix_append x y)
        (by rw [List.length_append]; exact h1)
    obtain ⟨u, hu⟩ := hsx
    exact ⟨s, u, by rw [← hu, List.append_assoc]⟩
  · by_cases h2 : x.length ≤ s.length
    · right; left
      have hs : s <+: x ++ y := ⟨w ++ t, by rw [← hst]; simp [List.append_assoc]⟩
      have hxs : x <+: s := List.prefix_of_prefix_length_le (List.prefix_append x y) hs h2
      obtain ⟨s', hs'⟩ := hxs
      refine ⟨s', t, ?_⟩
      have heq : x ++ (s' ++ (w ++ t)) = x ++ y := by
        rw [← List.append_assoc, ← List.append_assoc, hs', hst]
      have heq2 := List.append_cancel_left heq
      rw [← heq2]
      exact List.append_assoc s' w t
    · right; right
      have hks : s.length < x.length := by omega
      have hkw : x.length - s.length < w.length := by omega
      refine ⟨w.take (x.length - s.length), w.drop (x.length - s.length),
        (List.take_append_drop _ w).symm, ?_, ?_, ?_, ?_⟩
      · intro he
        have hle := congrArg List.length he
        rw [List.length_take] at hle
        simp only [List.length_nil] at hle
        omega
      · intro he
        have hle := congrArg List.length he
        rw [List.length_drop] at hle
        simp only [List.length_nil] at hle
        omega
      · have hx : x = s ++ w.take (x.length - s.length) := by
          have h3 : List.take x.length (s ++ (w ++ t)) = List.take x.length (x ++ y) := by
            rw [← List.append_assoc, hst]
          rw [List.take_append_eq_append_take, List.take_of_length_le (le_of_lt hks),
            List.take_append_eq_append_take,
            show x.length - s.length - w.length = 0 by omega, List.take_zero,
            List.append_nil, List.take_append_eq_append_take,
            List.take_of_length_le (le_refl x.length), Nat.sub_self, List.take_zero,
            List.append_nil] at h3
          exact h3.symm
        conv_rhs => rw [hx]
        exact List.suffix_append s _
      · have hy : y = w.drop (x.length - s.length) ++ t := by
          have h3 : List.drop x.length (s ++ (w ++ t)) = List.drop x.length (x ++ y) := by
            rw [← List.append_assoc, hst]
          rw [List.drop_append_eq_append_drop, List.drop_eq_nil_of_le (le_of_lt hks),
            List.nil_append, List.drop_append_eq_append_drop,
            show x.length - s.length - w.length = 0 by omega, List.drop_zero,
            List.drop_append_eq_append_drop, List.drop_eq_nil_of_le (le_refl x.length),
            List.nil_append, Nat.sub_self, List.drop_zero] at h3
          exact h3.symm
        exact ⟨t, hy.symm⟩

theorem split_space_unique :
    ∀ (w1 : Str), (' ' ∉ w1) → ∀ w2 : Str,
      ((w1 ++ ' ' :: w2).takeWhile (fun c => !(c = ' ')) = w1 ∧
       ((w1 ++ ' ' :: w2).dropWhile (fun c => !(c = ' '))).tail = w2) := by
  intro w1
  induction w1 with
  | nil =>
      intro _ w2
      constructor
      · simp [List.takeWhile_cons]
      · simp [List.dropWhile_cons]
  | cons c w1' ih =>
      intro hmem w2
      have hc : c ≠ ' ' := fun he => hmem (he ▸ List.mem_cons_self c w1')
      have hm' : ' ' ∉ w1' := fun hmm => hmem (List.mem_cons_of_mem c hmm)
      constructor
      · rw [List.cons_append, List.takeWhile_cons, if_pos (by simp [hc]),
          (ih hm' w2).1]
      · rw [List.cons_append, List.dropWhile_cons, if_pos (by simp [hc])]
        exact (ih hm' w2).2

theorem mem_infix_joinSpace {x : Str} : ∀ {L : List Str}, x ∈ L → x <:+: joinSpace L := by
  intro L
  induction L with
  | nil => intro h; simp at h
  | cons e rest ih =>
      intro h
      cases rest with
      | nil =>
          rw [List.mem_singleton] at h
          subst h
          exact List.infix_refl _
      | cons r t =>
          rcases List.mem_cons.mp h with he | he
          · subst he
            exact ⟨[], ' ' :: joinSpace (r :: t), rfl⟩
          · obtain ⟨s, t', hst⟩ := ih he
            refine ⟨(e ++ [' ']) ++ s, t', ?_⟩
            show (e ++ [' ']) ++ s ++ x ++ t' = joinSpace (e :: r :: t)
            have hj : joinSpace (e :: r :: t) = (e ++ [' ']) ++ joinSpace (r :: t) := by
              show e ++ ' ' :: joinSpace (r :: t) = _
              simp
            rw [hj, ← hst]
            simp [List.append_assoc]

/-- The keys of the fallback symptom map. -/
def fallback_keys : List Str := SYMPTOM_MAP_fallback.map Prod.fst

/-- The variation phrases whose standard symptom is a fallback-map key (the
only variation entries that can add anything during extraction over the
fallback map). -/
def active_variation_phrases : List Str :=
  [str "head pain", str "head ache", str "migraine",
   str "belly pain", str "tummy ache", str "abdominal pain",
   str "coughing", str "dry cough",
   str "throwing up", str "nausea", str "sick"]

/-- Every word the join analysis has to consider. -/
def join_words : List Str := fallback_keys ++ active_variation_phrases

theorem jw_ne_nil : ∀ w ∈ join_words, w ≠ [] := by decide

theorem jw_head : ∀ w ∈ join_words, w.head? ≠ some ' ' := by decide

theorem jw_last : ∀ w ∈ join_words, w.getLast? ≠ some ' ' := by decide

theorem jw_space : ∀ w ∈ join_words, w.count ' ' ≤ 1 := by decide

theorem span_fact : ∀ w ∈ join_words, ∀ e ∈ fallback_keys, ∀ e2 ∈ fallback_keys,
    ' ' ∈ w → (w.takeWhile (fun c => !(c = ' '))) <:+ e →
    ¬ ((w.dropWhile (fun c => !(c = ' '))).tail <+: e2) ∧
    ¬ (e2 <+: (w.dropWhile (fun c => !(c = ' '))).tail) := by decide

theorem infix_join_of_words {w : Str} (hw : w ∈ join_words) :
    ∀ (L : List Str), (∀ e ∈ L, e ∈ fallback_keys) →
      w <:+: joinSpace L → ∃ e ∈ L, w <:+: e := by
  intro L
  induction L with
  | nil =>
      intro _ hinf
      rw [show joinSpace [] = [] from rfl, List.infix_nil] at hinf
      exact absurd hinf (jw_ne_nil w hw)
  | cons e rest ih =>
      intro hL hinf
      cases rest with
      | nil => exact ⟨e, List.mem_cons_self e [], hinf⟩
      | cons r t =>
          rw [show joinSpace (e :: r :: t) = e ++ ' ' :: joinSpace (r :: t) from rfl] at hinf
          rcases infix_append_cases hinf with hx | hy | hspan
          · exact ⟨e, List.mem_cons_self e _, hx⟩
          · rcases List.infix_cons_iff.mp hy with hpre | hinf2
            · cases w with
              | nil => exact absurd rfl (jw_ne_nil [] hw)
              | cons c w' =>
                  rcases List.cons_prefix_cons.mp hpre with ⟨hc, -⟩
                  subst hc
                  exact absurd rfl (jw_head _ hw)
            · rcases ih (fun z hz => hL z (List.mem_cons_of_mem e hz)) hinf2 with ⟨e2, he2, hh⟩
              exact ⟨e2, List.mem_cons_of_mem e he2, hh⟩
          · obtain ⟨w1, w2, hw12, h1ne, h2ne, h1sfx, h2pre⟩ := hspan
            cases w2 with
            | nil => exact absurd rfl h2ne
            | cons c2 w2' =>
                rcases List.cons_prefix_cons.mp h2pre with ⟨hc2, h2pre'⟩
                subst hc2
                have hcount : w.count ' ' = w1.count ' ' + 1 + w2'.count ' ' := by
                  rw [hw12, List.count_append, List.count_cons]
                  simp [Nat.add_comm, Nat.add_assoc, Nat.add_left_comm]
                have hcle := jw_space w hw
                have h1z : w1.count ' ' = 0 := by omega
                have h2z : w2'.count ' ' = 0 := by omega
                have h1sp : ' ' ∉ w1 := List.count_eq_zero.mp h1z
                have h2sp : ' ' ∉ w2' := List.count_eq_zero.mp h2z
                cases w2' with
                | nil =>
                    have hlast : w.getLast? = some ' ' := by
                      rw [hw12]
                      rw [show w1 ++ [' '] = w1 ++ [' '] from rfl]
                      exact List.getLast?_concat w1
                    exact absurd hlast (jw_last w hw)
                | cons c3 w3 =>
                    have hsplit := split_space_unique w1 h1sp (c3 :: w3)
                    have htk : w.takeWhile (fun c => !(c = ' ')) = w1 := by
                      rw [hw12]; exact hsplit.1
                    have hdp : (w.dropWhile (fun c => !(c = ' '))).tail = c3 :: w3 := by
                      rw [hw12]; exact hsplit.2
                    have hor : (c3 :: w3 <+: r) ∨ (r <+: c3 :: w3) := by
                      cases t with
                      | nil => exact Or.inl h2pre'
                      | cons r2 t2 =>
                          rw [show joinSpace (r :: r2 :: t2) =
                            r ++ ' ' :: joinSpace (r2 :: t2) from rfl] at h2pre'
                          exact prefix_append_cases h2pre'
                    have hspmem : ' ' ∈ w := by
                      rw [hw12]
                      exact List.mem_append_right w1 (List.mem_cons_self ' ' _)
                    have hsfx' : (w.takeWhile (fun c => !(c = ' '))) <:+ e := by
                      rw [htk]; exact h1sfx
                    have hsp := span_fact w hw e (hL e (List.mem_cons_self e _)) r
                      (hL r (List.mem_cons_of_mem e (List.mem_cons_self r t))) hspmem hsfx'
                    rw [hdp] at hsp
                    rcases hor with h | h
                    · exact absurd h hsp.1
                    · exact absurd h hsp.2

theorem keys_lower : ∀ k ∈ fallback_keys, lowerStr k = k := by decide

theorem keys_head_not_space : ∀ k ∈ fallback_keys, ∀ c, k.head? = some c → pySpace c = false := by
  decide

theorem keys_last_not_space : ∀ k ∈ fallback_keys, ∀ c, k.getLast? = some c → pySpace c = false := by
  decide

theorem lower_joinSpace : ∀ {L : List Str}, (∀ e ∈ L, lowerStr e = e) →
    lowerStr (joinSpace L) = joinSpace L := by
  intro L
  induction L with
  | nil => intro _; rfl
  | cons e rest ih =>
      intro h
      cases rest with
      | nil => exact h e (List.mem_cons_self e [])
      | cons r t =>
          show lowerStr (e ++ ' ' :: joinSpace (r :: t)) = e ++ ' ' :: joinSpace (r :: t)
          rw [show lowerStr (e ++ ' ' :: joinSpace (r :: t)) =
            lowerStr e ++ Char.toLower ' ' :: lowerStr (joinSpace (r :: t)) by
              simp [lowerStr]]
          rw [h e (List.mem_cons_self e _), ih (fun z hz => h z (List.mem_cons_of_mem e hz)),
            show Char.toLower ' ' = ' ' by decide]

theorem dropWhile_eq_self_of_head {p : Char → Bool} {l : Str}
    (h : ∀ c, l.head? = some c → p c = false) : l.dropWhile p = l := by
  cases l with
  | nil => rfl
  | cons c t =>
      rw [List.dropWhile_cons, if_neg]
      rw [h c rfl]
      simp

theorem pstrip_eq_self {s : Str}
    (hhead : ∀ c, s.head? = some c → pySpace c = false)
    (hlast : ∀ c, s.getLast? = some c → pySpace c = false) : pstrip s = s := by
  unfold pstrip
  rw [dropWhile_eq_self_of_head hhead]
  rw [dropWhile_eq_self_of_head (by
    intro c hc
    rw [List.head?_reverse] at hc
    exact hlast c hc)]
  exact List.reverse_reverse s

theorem joinSpace_ne_nil {L : List Str} {e : Str} {rest : List Str}
    (hL : L = e :: rest) (he : e ≠ []) : joinSpace L ≠ [] := by
  subst hL
  cases rest with
  | nil => exact he
  | cons r t =>
      show e ++ ' ' :: joinSpace (r :: t) ≠ []
      simp

theorem joinSpace_head? {e : Str} {rest : List Str} (he : e ≠ []) :
    (joinSpace (e :: rest)).head? = e.head? := by
  cases rest with
  | nil => rfl
  | cons r t =>
      show (e ++ ' ' :: joinSpace (r :: t)).head? = e.head?
      rw [List.head?_append]
      cases hc : e.head? with
      | none => exact absurd (List.head?_eq_none_iff.mp hc) he
      | some c => rfl

theorem joinSpace_getLast? : ∀ {L : List Str}, L ≠ [] → (∀ x ∈ L, x ≠ []) →
    ∃ k ∈ L, (joinSpace L).getLast? = k.getLast? := by
  intro L
  induction L with
  | nil => intro h _; exact absurd rfl h
  | cons e rest ih =>
      intro _ hx
      cases rest with
      | nil => exact ⟨e, List.mem_cons_self e [], rfl⟩
      | cons r t =>
          obtain ⟨k, hk, hke⟩ := ih (by simp) (fun z hz => hx z (List.mem_cons_of_mem e hz))
          refine ⟨k, List.mem_cons_of_mem e hk, ?_⟩
          show (e ++ ' ' :: joinSpace (r :: t)).getLast? = k.getLast?
          rw [List.getLast?_append, ← hke]
          cases hj : (' ' :: joinSpace (r :: t)).getLast? with
          | none => simp at hj
          | some c =>
              have : (' ' :: joinSpace (r :: t)).getLast? = (joinSpace (r :: t)).getLast? := by
                cases hjr : joinSpace (r :: t) with
                | nil =>
                    exact absurd hjr (joinSpace_ne_nil rfl (hx r (List.mem_cons_of_mem e (List.mem_cons_self r t))))
                | cons c2 t2 => rw [List.getLast?_cons_cons]
              rw [← this, hj]
              rfl

theorem processed_joinSpace {L : List Str} (hL : ∀ e ∈ L, e ∈ fallback_keys)
    (hne : L ≠ []) : pstrip (lowerStr (joinSpace L)) = joinSpace L := by
  obtain ⟨e, rest, hrw⟩ : ∃ e rest, L = e :: rest := by
    cases L with
    | nil => exact absurd rfl hne
    | cons e rest => exact ⟨e, rest, rfl⟩
  have hkeys_ne : ∀ x ∈ L, x ≠ [] := fun x hx =>
    jw_ne_nil x (List.mem_append_left _ (hL x hx))
  rw [lower_joinSpace (fun z hz => keys_lower z (hL z hz))]
  apply pstrip_eq_self
  · intro c hc
    subst hrw
    rw [joinSpace_head? (hkeys_ne e (List.mem_cons_self e rest))] at hc
    exact keys_head_not_space e (hL e (List.mem_cons_self e rest)) c hc
  · intro c hc
    obtain ⟨k, hk, hke⟩ := joinSpace_getLast? hne hkeys_ne
    rw [hke] at hc
    exact keys_last_not_space k (hL k hk) c hc

theorem mem_direct_iff {sm : List (Str × Str)} {t x : Str} :
    x ∈ direct_matches sm t ↔ x ∈ sm.map Prod.fst ∧ substrB x t = true := by
  unfold direct_matches
  exact List.mem_filter

theorem mem_foldl_variation {sm : List (Str × Str)} {t : Str} :
    ∀ (vl : List (Str × List Str)) (acc : List Str) (y : Str), y ∈ acc →
      y ∈ vl.foldl (variation_step sm t) acc := by
  intro vl
  induction vl with
  | nil => intro acc y hy; exact hy
  | cons p rest ih =>
      intro acc y hy
      rw [List.foldl_cons]
      apply ih
      unfold variation_step
      by_cases hc : acc.contains p.1 = true
      · rw [if_pos hc]; exact hy
      · rw [if_neg hc]
        cases hf : p.2.find? (fun v => substrB v t) with
        | none => exact hy
        | some v =>
            by_cases hk : hasKey sm p.1 = true
            · rw [if_pos hk]
              exact List.mem_append_left _ hy
            · rw [if_neg hk]
              exact hy

theorem mem_foldl_variation_cases {sm : List (Str × Str)} {t : Str} :
    ∀ (vl : List (Str × List Str)) (acc : List Str) (y : Str),
      y ∈ vl.foldl (variation_step sm t) acc →
      y ∈ acc ∨ ∃ p ∈ vl, y = p.1 ∧ hasKey sm p.1 = true := by
  intro vl
  induction vl with
  | nil => intro acc y hy; exact Or.inl hy
  | cons p rest ih =>
      intro acc y hy
      rw [List.foldl_cons] at hy
      rcases ih _ y hy with hacc | ⟨q, hq, he, hk⟩
      · unfold variation_step at hacc
        by_cases hc : acc.contains p.1 = true
        · rw [if_pos hc] at hacc
          exact Or.inl hacc
        · rw [if_neg hc] at hacc
          cases hf : p.2.find? (fun v => substrB v t) with
          | none =>
              rw [hf] at hacc
              exact Or.inl hacc
          | some v =>
              rw [hf] at hacc
              by_cases hk : hasKey sm p.1 = true
              · rw [if_pos hk] at hacc
                rcases List.mem_append.mp hacc with h | h
                · exact Or.inl h
                · rw [List.mem_singleton] at h
                  exact Or.inr ⟨p, List.mem_cons_self p rest, h, hk⟩
              · rw [if_neg hk] at hacc
                exact Or.inl hacc
      · exact Or.inr ⟨q, List.mem_cons_of_mem p hq, he, hk⟩

theorem mem_extract_iff {sm : List (Str × Str)} {text x : Str} :
    x ∈ extract_symptoms_from_text sm text ↔
      x ∈ symptom_variations.foldl (variation_step sm (pstrip (lowerStr text)))
        (direct_matches sm (pstrip (lowerStr text))) := by
  unfold extract_symptoms_from_text
  exact List.mem_dedup

theorem variation_step_no_key {sm : List (Str × Str)} {t : Str} {acc : List Str}
    {p : Str × List Str} (h : hasKey sm p.1 = false) : variation_step sm t acc p = acc := by
  unfold variation_step
  by_cases hc : acc.contains p.1 = true
  · rw [if_pos hc]
  · rw [if_neg hc]
    cases p.2.find? (fun v => substrB v t) with
    | none => rfl
    | some v =>
        rw [if_neg]
        rw [h]
        simp

theorem variation_step_none {sm : List (Str × Str)} {t : Str} {acc : List Str}
    {p : Str × List Str} (h : p.2.find? (fun v => substrB v t) = none) :
    variation_step sm t acc p = acc := by
  unfold variation_step
  by_cases hc : acc.contains p.1 = true
  · rw [if_pos hc]
  · rw [if_neg hc, h]

theorem variation_step_contains {sm : List (Str × Str)} {t : Str} {acc : List Str}
    {p : Str × List Str} (h : acc.contains p.1 = true) : variation_step sm t acc p = acc := by
  unfold variation_step
  rw [if_pos h]

theorem foldl_variation_id {sm : List (Str × Str)} {t : Str} {acc : List Str} :
    ∀ {vl : List (Str × List Str)}, (∀ p ∈ vl, variation_step sm t acc p = acc) →
      vl.foldl (variation_step sm t) acc = acc := by
  intro vl
  induction vl with
  | nil => intro _; rfl
  | cons p rest ih =>
      intro h
      rw [List.foldl_cons, h p (List.mem_cons_self p rest)]
      exact ih (fun q hq => h q (List.mem_cons_of_mem p hq))

theorem var_in_key : ∀ v ∈ active_variation_phrases, ∀ e ∈ fallback_keys,
    substrB v e = true → v = str "dry cough" ∧ e = str "dry cough" := by decide

theorem key_in_varstd : ∀ x ∈ fallback_keys, ∀ p ∈ symptom_variations,
    hasKey SYMPTOM_MAP_fallback p.1 = true → substrB x p.1 = true → x = p.1 := by decide

theorem phrase_not_in_join {L : List Str} (hL : ∀ e ∈ L, e ∈ fallback_keys) :
    ∀ v ∈ active_variation_phrases, v ≠ str "dry cough" →
      substrB v (joinSpace L) = false := by
  intro v hv hvd
  cases hsb : substrB v (joinSpace L) with
  | false => rfl
  | true =>
      obtain ⟨e, heL, hve⟩ :=
        infix_join_of_words (List.mem_append_right _ hv) L hL (substrB_iff.mp hsb)
      exact absurd (var_in_key v hv e (hL e heL) (substrB_iff.mpr hve)).1 hvd

theorem round2_no_add (L : List Str) (hL : ∀ e ∈ L, e ∈ fallback_keys) :
    symptom_variations.foldl (variation_step SYMPTOM_MAP_fallback (joinSpace L))
      (direct_matches SYMPTOM_MAP_fallback (joinSpace L)) =
    direct_matches SYMPTOM_MAP_fallback (joinSpace L) := by
  have hnv := phrase_not_in_join hL
  apply foldl_variation_id
  intro p hp
  simp only [symptom_variations, List.mem_cons, List.not_mem_nil, or_false] at hp
  rcases hp with rfl|rfl|rfl|rfl|rfl|rfl|rfl|rfl|rfl|rfl|rfl
  · -- headache
    apply variation_step_none
    rw [List.find?_eq_none]
    intro v hv
    simp only [List.mem_cons, List.not_mem_nil, or_false] at hv
    rcases hv with rfl|rfl|rfl <;> (rw [hnv _ (by decide) (by decide)]; simp)
  · -- stomach pain
    apply variation_step_none
    rw [List.find?_eq_none]
    intro v hv
    simp only [List.mem_cons, List.not_mem_nil, or_false] at hv
    rcases hv with rfl|rfl|rfl <;> (rw [hnv _ (by decide) (by decide)]; simp)
  · exact variation_step_no_key (by decide)
  · exact variation_step_no_key (by decide)
  · exact variation_step_no_key (by decide)
  · exact variation_step_no_key (by decide)
  · -- cough
    by_cases hdc : substrB (str "dry cough") (joinSpace L) = true
    · apply variation_step_contains
      apply mem_contains_true
      apply mem_direct_iff.mpr
      refine ⟨by decide, ?_⟩
      obtain ⟨e, heL, hie⟩ := infix_join_of_words
        (show str "dry cough" ∈ join_words by decide) L hL (substrB_iff.mp hdc)
      have he := var_in_key _ (by decide) e (hL e heL) (substrB_iff.mpr hie)
      have hcoughe : str "cough" <:+: e := by
        rw [he.2]
        exact substrB_iff.mp (by decide)
      exact substrB_iff.mpr (hcoughe.trans (mem_infix_joinSpace heL))
    · apply variation_step_none
      rw [List.find?_eq_none]
      intro v hv
      simp only [List.mem_cons, List.not_mem_nil, or_false] at hv
      rcases hv with rfl|rfl
      · rw [hnv _ (by decide) (by decide)]; simp
      · exact hdc
  · -- vomiting
    apply variation_step_none
    rw [List.find?_eq_none]
    intro v hv
    simp only [List.mem_cons, List.not_mem_nil, or_false] at hv
    rcases hv with rfl|rfl|rfl <;> (rw [hnv _ (by decide) (by decide)]; simp)
  · exact variation_step_no_key (by decide)
  · exact variation_step_no_key (by decide)
  · exact variation_step_no_key (by decide)


theorem c6_extract_join_empty :
    extract_symptoms_from_text SYMPTOM_MAP_fallback (joinSpace []) = [] := by decide

/-- Claim C6: extraction by the advanced engine over the built-in symptom
map is a fixed point under re-extraction: if `L` lists exactly the symptoms
extracted from `text`, then extracting again from the space-join of `L`
yields exactly the same set of symptoms. -/
theorem C6_extract_fixed_point (text : Str) (L : List Str)
    (hL : ∀ x, x ∈ L ↔ x ∈ extract_symptoms_from_text SYMPTOM_MAP_fallback text) :
    ∀ x, x ∈ extract_symptoms_from_text SYMPTOM_MAP_fallback (joinSpace L) ↔
      x ∈ extract_symptoms_from_text SYMPTOM_MAP_fallback text := by
  intro x
  have hLkeys : ∀ e ∈ L, e ∈ fallback_keys := fun e he =>
    extract_mem_keys _ _ e ((hL e).mp he)
  by_cases hLnil : L = []
  · subst hLnil
    rw [c6_extract_join_empty]
    constructor
    · intro hx
      exact absurd hx (List.not_mem_nil x)
    · intro hx
      exact absurd ((hL x).mpr hx) (List.not_mem_nil x)
  · have hproc := processed_joinSpace hLkeys hLnil
    rw [mem_extract_iff, hproc, round2_no_add L hLkeys, mem_direct_iff]
    constructor
    · rintro ⟨hxkeys, hxsub⟩
      obtain ⟨e, heL, hxe⟩ :=
        infix_join_of_words (List.mem_append_left _ hxkeys) L hLkeys (substrB_iff.mp hxsub)
      have he1 : e ∈ extract_symptoms_from_text SYMPTOM_MAP_fallback text := (hL e).mp heL
      rcases mem_foldl_variation_cases _ _ e (mem_extract_iff.mp he1) with
        hdir | ⟨p, hp, hep, hkey⟩
      · have hd := mem_direct_iff.mp hdir
        have hx1 : substrB x (pstrip (lowerStr text)) = true :=
          substrB_iff.mpr (infix_trans hxe (substrB_iff.mp hd.2))
        exact mem_extract_iff.mpr
          (mem_foldl_variation _ _ x (mem_direct_iff.mpr ⟨hxkeys, hx1⟩))
      · have hxp : substrB x p.1 = true := by
          rw [← hep]
          exact substrB_iff.mpr hxe
        have hxe2 : x = e := by
          rw [key_in_varstd x hxkeys p hp hkey hxp, hep]
        rw [hxe2]
        exact he1
    · intro hx1
      have hxkeys : x ∈ fallback_keys := extract_mem_keys _ _ x hx1
      exact ⟨hxkeys, substrB_iff.mpr (mem_infix_joinSpace ((hL x).mpr hx1))⟩


theorem C6_extract_fixed_point_witness :
    (str "fever" ∈ extract_symptoms_from_text SYMPTOM_MAP_fallback
        (joinSpace (extract_symptoms_from_text SYMPTOM_MAP_fallback
          (str "fever and cough"))) ↔
      str "fever" ∈ extract_symptoms_from_text SYMPTOM_MAP_fallback
        (str "fever and cough")) :=
  C6_extract_fixed_point (str "fever and cough")
    (extract_symptoms_from_text SYMPTOM_MAP_fallback (str "fever and cough"))
    (fun _ => Iff.rfl) (str "fever")

end SproutAI
